import Mathlib

/-
Verification of the namespace-crossing request fabric of the sysbox-fs
(sysvisor-fs) daemon, as implemented in the `nsenter` package
(cmd/sysvisor-fs/main.go in this snapshot) and the /proc/sys/net/unix
handler (handler/implementations/procSysNetUnix.go).

The Go code is shallowly embedded: every agent-side operation
(`processLookupRequest`, `processMountSyscallRequest`, ...) becomes a pure
Lean function over an explicit oracle (`World`) that decides the outcome of
each kernel interaction (stat, open, mount, unmount, chown, path
resolution, ...).  Each function additionally returns the ordered trace of
syscalls it issued, so that ordering and rollback properties can be stated
about the trace.  Machine-integer conversions (uint32 <-> int32 in the
credential channel) are modelled on Nat/Int with explicit reduction
modulo 2^32.
-/

set_option maxRecDepth 4096

namespace SysboxFS

/-- Error transported inside a `fuse.IOerror{RcvError: err}` payload.  Only
the identity of the error matters for the properties below, so it is
modelled as its message string. -/
structure IOerror where
  msg : String
deriving DecidableEq

/-- Tags of the `domain.NSenterMessage` tagged union (the `Type` field). -/
inductive MsgType
  | LookupRequest | LookupResponse
  | OpenFileRequest | OpenFileResponse
  | ReadFileRequest | ReadFileResponse
  | WriteFileRequest | WriteFileResponse
  | ReadDirRequest | ReadDirResponse
  | MountSyscallRequest | MountSyscallResponse
  | UmountSyscallRequest | UmountSyscallResponse
  | MountInfoRequest | MountInfoResponse
  | MountInodeRequest | MountInodeResponse
  | ChownSyscallRequest | ChownSyscallResponse
  | SleepRequest | SleepResponse
  | ErrorResponse
deriving DecidableEq

/-- `domain.FileInfo`: the stat result shipped in Lookup/ReadDir responses.
`FmodTime` (a `time.Time`) and `Fsys` (a `*syscall.Stat_t`) are opaque to
every property below and are modelled as integers identifying their
values. -/
structure FileInfo where
  Fname : String
  Fsize : Int
  Fmode : Nat
  FmodTime : Int
  FisDir : Bool
  Fsys : Nat
deriving DecidableEq

/-- `domain.LookupPayload`. -/
structure LookupPayload where
  Entry : String
deriving DecidableEq

/-- `domain.OpenFilePayload` (flags and mode travel as decimal strings). -/
structure OpenFilePayload where
  File : String
  Flags : String
  Mode : String
deriving DecidableEq

/-- `domain.ReadFilePayload`. -/
structure ReadFilePayload where
  File : String
deriving DecidableEq

/-- `domain.WriteFilePayload`. -/
structure WriteFilePayload where
  File : String
  Content : String
deriving DecidableEq

/-- `domain.ReadDirPayload`. -/
structure ReadDirPayload where
  Dir : String
deriving DecidableEq

/-- `domain.MountSyscallPayload` header (uid/gid/capabilities/root/cwd used
by the overlayfs personality adjustment). -/
structure MountHeader where
  Uid : Nat
  Gid : Nat
  Root : String
  Cwd : String
  Capabilities : Nat
deriving DecidableEq

/-- `domain.MountSyscallPayload`: one element of a MountSyscall batch. -/
structure MountSyscallPayload where
  Header : MountHeader
  Source : String
  Target : String
  FsType : String
  Flags : Nat
  Data : String
deriving DecidableEq

/-- `domain.UmountSyscallPayload`: one element of a UmountSyscall batch. -/
structure UmountSyscallPayload where
  Target : String
  Flags : Nat
deriving DecidableEq

/-- `domain.ChownSyscallPayload`: one element of a ChownSyscall batch. -/
structure ChownSyscallPayload where
  Target : String
  TargetUid : Int
  TargetGid : Int
deriving DecidableEq

/-- `domain.MountInodeReqPayload`. -/
structure MountInodeReqPayload where
  Mountpoints : List String
deriving DecidableEq

/-- `domain.SleepReqPayload` (seconds as a decimal string). -/
structure SleepReqPayload where
  Ival : String
deriving DecidableEq

/-- The `Payload` field of a `domain.NSenterMessage`.  In Go it is an
`interface{}` serialized to JSON; here it is the tagged union of every
concrete payload the code ever stores in it.  `pnil` is Go's `nil`
payload, which marshals to JSON `null`. -/
inductive Payload
  | pnil
  | pint (n : Int)
  | pstr (s : String)
  | pfileInfo (fi : FileInfo)
  | pfiList (l : List FileInfo)
  | pmountInfo (records : List String)
  | pmountInode (inodes : List Nat)
  | pioErr (e : IOerror)
  | plookup (p : LookupPayload)
  | popen (p : OpenFilePayload)
  | pread (p : ReadFilePayload)
  | pwrite (p : WriteFilePayload)
  | preaddir (p : ReadDirPayload)
  | pmountReq (l : List MountSyscallPayload)
  | pumountReq (l : List UmountSyscallPayload)
  | pchownReq (l : List ChownSyscallPayload)
  | pinodeReq (p : MountInodeReqPayload)
  | psleep (p : SleepReqPayload)
deriving DecidableEq

instance instDecidableEqExcept {ε α : Type} [DecidableEq ε] [DecidableEq α] :
    DecidableEq (Except ε α) := fun a b =>
  match a, b with
  | Except.error e, Except.error f =>
    if h : e = f then isTrue (by rw [h])
    else isFalse (by intro hh; cases hh; exact h rfl)
  | Except.error _, Except.ok _ => isFalse (by intro hh; cases hh)
  | Except.ok _, Except.error _ => isFalse (by intro hh; cases hh)
  | Except.ok x, Except.ok y =>
    if h : x = y then isTrue (by rw [h])
    else isFalse (by intro hh; cases hh; exact h rfl)

/-- `domain.NSenterMessage`: tag plus payload.  The Go field `Type` is
renamed `Mtype` because `Type` is reserved in Lean. -/
structure NSenterMessage where
  Mtype : MsgType
  Payload : Payload
deriving DecidableEq

/-- One syscall issued by the agent, as recorded in the execution trace. -/
inductive Sys
  | stat (path : String)
  | openf (path : String) (flags mode : Int)
  | readf (path : String)
  | writef (path content : String)
  | readdir (path : String)
  | mount (source target fstype : String) (flags : Nat) (data : String)
  | umount (target : String) (flags : Nat)
  | chown (target : String) (uid gid : Int)
deriving DecidableEq

/-- Go's `strconv.Atoi` / `strconv.ParseInt(s, 10, 64)`: an optional sign
followed by at least one decimal digit; anything else is an error. -/
def goParseInt (s : String) : Except IOerror Int :=
  let core : List Char → Option Nat := fun cs =>
    if cs = [] then none
    else if cs.all Char.isDigit then
      some (cs.foldl (fun acc c => acc * 10 + (c.toNat - 48)) 0)
    else none
  match s.toList with
  | '+' :: rest =>
      match core rest with
      | some n => Except.ok (Int.ofNat n)
      | none => Except.error ⟨"invalid syntax"⟩
  | '-' :: rest =>
      match core rest with
      | some n => Except.ok (-(Int.ofNat n))
      | none => Except.error ⟨"invalid syntax"⟩
  | cs =>
      match core cs with
      | some n => Except.ok (Int.ofNat n)
      | none => Except.error ⟨"invalid syntax"⟩

/-- Oracle fixing the outcome of every interaction the agent has with its
environment (kernel syscalls, the process service's path resolution, the
mountinfo parser and the credential channel).  `resolve` models
`process.ResolveProcSelf` for the process created with the caller pid:
code of this repository outside src/, hence abstracted; the spec-modelled
reference implementation is `resolveProcSelf` below. -/
structure World where
  credErr : Option IOerror
  resolve : Nat → String → Except IOerror String
  stat : String → Except IOerror FileInfo
  openFile : String → Int → Int → Option IOerror
  readFile : String → Except IOerror String
  writeFile : String → String → Option IOerror
  readDir : String → Except IOerror (List FileInfo)
  mountErr : String → String → String → Nat → String → Option IOerror
  umountErr : String → Nat → Option IOerror
  chownErr : String → Int → Int → Option IOerror
  adjustErr : MountHeader → Option IOerror
  mountInfo : Except IOerror (List String)
  fileInode : String → Nat

/-- Whitespace characters recognized by Go's `strings.TrimSpace` in the
ASCII range. -/
def isSpaceChar (c : Char) : Bool :=
  c = ' ' || c = '\t' || c = '\n' || c = '\r' || c = '\x0b' || c = '\x0c'

/-- String prefix test on the character lists (Go `strings.HasPrefix`),
kept structural so it evaluates inside the kernel. -/
def strHasPrefix (pfx s : String) : Bool := pfx.toList.isPrefixOf s.toList

/-- Drop the first `n` characters of a string, structurally. -/
def strDropLen (n : Nat) (s : String) : String := String.mk (s.toList.drop n)

/-- Go `strings.TrimSpace` (the agent applies it to read file content):
strip leading and trailing whitespace characters. -/
def goTrimSpace (s : String) : String :=
  String.mk (((s.toList.dropWhile isSpaceChar).reverse.dropWhile isSpaceChar).reverse)

/-- Modelled from the spec: `ResolveProcSelf` of the process package is not
included under src/.  Per spec section 4.2 ("Path resolution: every path
argument that begins with /proc/self is resolved through
/proc/caller_pid/... before the syscall"), a path equal to `/proc/self` or
starting with `/proc/self/` (11 characters) has that head replaced by
`/proc/` followed by the caller pid; any other path is returned
unchanged. -/
def resolveProcSelf (pid : Nat) (path : String) : String :=
  if path = "/proc/self" then "/proc/" ++ toString pid
  else if strHasPrefix "/proc/self/" path then
    "/proc/" ++ toString pid ++ "/" ++ strDropLen 11 path
  else path

/-- Agent side of `Lookup` (`processLookupRequest`, main.go:810): stat the
payload entry verbatim; on error reply `ErrorResponse`, otherwise
`LookupResponse` with the `FileInfo`. -/
def processLookupRequest (w : World) (pl : LookupPayload) :
    NSenterMessage × List Sys :=
  match w.stat pl.Entry with
  | Except.error e => (⟨MsgType.ErrorResponse, Payload.pioErr e⟩, [Sys.stat pl.Entry])
  | Except.ok info => (⟨MsgType.LookupResponse, Payload.pfileInfo info⟩, [Sys.stat pl.Entry])

/-- Agent side of `OpenFile` (`processOpenFileRequest`, main.go:851): parse
flags and mode with `strconv.Atoi`, open-then-close the file, and reply
`OpenFileResponse` with a nil payload on success. -/
def processOpenFileRequest (w : World) (pl : OpenFilePayload) :
    NSenterMessage × List Sys :=
  match goParseInt pl.Flags with
  | Except.error e => (⟨MsgType.ErrorResponse, Payload.pioErr e⟩, [])
  | Except.ok openFlags =>
    match goParseInt pl.Mode with
    | Except.error e => (⟨MsgType.ErrorResponse, Payload.pioErr e⟩, [])
    | Except.ok mode =>
      match w.openFile pl.File openFlags mode with
      | some e =>
          (⟨MsgType.ErrorResponse, Payload.pioErr e⟩, [Sys.openf pl.File openFlags mode])
      | none =>
          (⟨MsgType.OpenFileResponse, Payload.pnil⟩, [Sys.openf pl.File openFlags mode])

/-- Agent side of `ReadFile` (`processFileReadRequest`, main.go:897): read
the payload file verbatim and reply with the whitespace-trimmed content
(`strings.TrimSpace`, modelled by `String.trim`). -/
def processFileReadRequest (w : World) (pl : ReadFilePayload) :
    NSenterMessage × List Sys :=
  match w.readFile pl.File with
  | Except.error e => (⟨MsgType.ErrorResponse, Payload.pioErr e⟩, [Sys.readf pl.File])
  | Except.ok content =>
      (⟨MsgType.ReadFileResponse, Payload.pstr (goTrimSpace content)⟩, [Sys.readf pl.File])

/-- Agent side of `WriteFile` (`processFileWriteRequest`, main.go:920):
write the payload content to the file verbatim; success replies
`WriteFileResponse` with a nil payload. -/
def processFileWriteRequest (w : World) (pl : WriteFilePayload) :
    NSenterMessage × List Sys :=
  match w.writeFile pl.File pl.Content with
  | some e =>
      (⟨MsgType.ErrorResponse, Payload.pioErr e⟩, [Sys.writef pl.File pl.Content])
  | none =>
      (⟨MsgType.WriteFileResponse, Payload.pnil⟩, [Sys.writef pl.File pl.Content])

/-- Agent side of `ReadDir` (`processDirReadRequest`, main.go:943): list the
payload directory verbatim and reply with the entries' `FileInfo`s in
order. -/
def processDirReadRequest (w : World) (pl : ReadDirPayload) :
    NSenterMessage × List Sys :=
  match w.readDir pl.Dir with
  | Except.error e => (⟨MsgType.ErrorResponse, Payload.pioErr e⟩, [Sys.readdir pl.Dir])
  | Except.ok entries =>
      (⟨MsgType.ReadDirResponse, Payload.pfiList entries⟩, [Sys.readdir pl.Dir])

/-- Kernel constant `unix.MS_REMOUNT`. -/
def MS_REMOUNT : Nat := 32

/-- The mount loop of `processMountSyscallRequest` (main.go:1025): for each
batch element in order, resolve its source, then its target, then issue
the mount syscall, breaking at the first error.  Returns the list of batch
elements that mounted successfully (with their `Source`/`Target` fields
overwritten by the resolved paths, as the Go code mutates the slice in
place), the error that stopped the loop (if any), and the trace of mount
syscalls issued (including a final failing attempt, if the failure happened
at the syscall rather than at resolution). -/
def mountLoop (w : World) (pid : Nat) :
    List MountSyscallPayload → List MountSyscallPayload × Option IOerror × List Sys
  | [] => ([], none, [])
  | q :: rest =>
    match w.resolve pid q.Source with
    | Except.error er => ([], some er, [])
    | Except.ok src =>
      match w.resolve pid q.Target with
      | Except.error er => ([], some er, [])
      | Except.ok tgt =>
        match w.mountErr src tgt q.FsType q.Flags q.Data with
        | some er => ([], some er, [Sys.mount src tgt q.FsType q.Flags q.Data])
        | none =>
          let r := mountLoop w pid rest
          ({ q with Source := src, Target := tgt } :: r.1, r.2.1,
            Sys.mount src tgt q.FsType q.Flags q.Data :: r.2.2)

/-- The rollback loop of `processMountSyscallRequest` (main.go:1054): for
`j` from the last successfully mounted element down to the first, unmount
its (already resolved) target unless its flags contain `MS_REMOUNT`; the
unmount result is discarded.  `done` is the successfully mounted prefix in
submission order. -/
def rollbackMounts (done : List MountSyscallPayload) : List Sys :=
  done.reverse.filterMap fun q =>
    if q.Flags &&& MS_REMOUNT = MS_REMOUNT then none
    else some (Sys.umount q.Target 0)

/-- Agent side of `MountSyscall` (`processMountSyscallRequest`,
main.go:981).  The Go code first reads `payload[0].Header`, panicking on an
empty batch (modelled by `none`); for an overlayfs first element it adjusts
the nsenter process personality (failure replies `ErrorResponse`); then it
runs the mount loop and, on failure, rolls back the successful non-remount
prefix in reverse order and replies `ErrorResponse` with the failing
error; full success replies `MountSyscallResponse` with an empty-string
payload. -/
def processMountSyscallRequest (w : World) (pid : Nat) :
    List MountSyscallPayload → Option (NSenterMessage × List Sys)
  | [] => none
  | q :: rest =>
    match (if q.FsType = "overlay" then w.adjustErr q.Header else none) with
    | some er => some (⟨MsgType.ErrorResponse, Payload.pioErr er⟩, [])
    | none =>
      let r := mountLoop w pid (q :: rest)
      match r.2.1 with
      | some er =>
          some (⟨MsgType.ErrorResponse, Payload.pioErr er⟩, r.2.2 ++ rollbackMounts r.1)
      | none => some (⟨MsgType.MountSyscallResponse, Payload.pstr ""⟩, r.2.2)

/-- Agent side of `UmountSyscall` (`processUmountSyscallRequest`,
main.go:1078): for each batch element in order, resolve the target and
issue the unmount syscall.  A resolution failure breaks out of the loop
with the response message still unset (`none` here: the Go code then
returns with a nil `ResMsg`); an unmount failure sets an `ErrorResponse`
and breaks; full success replies `UmountSyscallResponse` with an
empty-string payload.  No completed unmount is ever reverted. -/
def processUmountSyscallRequest (w : World) (pid : Nat) :
    List UmountSyscallPayload → Option NSenterMessage × List Sys
  | [] => (some ⟨MsgType.UmountSyscallResponse, Payload.pstr ""⟩, [])
  | q :: rest =>
    match w.resolve pid q.Target with
    | Except.error _ => (none, [])
    | Except.ok tgt =>
      match w.umountErr tgt q.Flags with
      | some er =>
          (some ⟨MsgType.ErrorResponse, Payload.pioErr er⟩, [Sys.umount tgt q.Flags])
      | none =>
        let r := processUmountSyscallRequest w pid rest
        (r.1, Sys.umount tgt q.Flags :: r.2)

/-- The chown loop of `processChownSyscallRequest` (main.go:1132): for each
batch element in order, resolve the target and issue the chown syscall.  A
resolution failure merely breaks out of the loop (`none`: no response is
recorded); a chown failure returns an `ErrorResponse` immediately. -/
def chownLoop (w : World) (pid : Nat) :
    List ChownSyscallPayload → Option NSenterMessage × List Sys
  | [] => (none, [])
  | q :: rest =>
    match w.resolve pid q.Target with
    | Except.error _ => (none, [])
    | Except.ok tgt =>
      match w.chownErr tgt q.TargetUid q.TargetGid with
      | some er =>
          (some ⟨MsgType.ErrorResponse, Payload.pioErr er⟩,
            [Sys.chown tgt q.TargetUid q.TargetGid])
      | none =>
        let r := chownLoop w pid rest
        (r.1, Sys.chown tgt q.TargetUid q.TargetGid :: r.2)

/-- Agent side of `ChownSyscall` (`processChownSyscallRequest`,
main.go:1127): run the chown loop; if it returned an `ErrorResponse` reply
with it, otherwise — including after a resolution failure broke the loop
early — reply `ChownSyscallResponse` with an empty-string payload. -/
def processChownSyscallRequest (w : World) (pid : Nat)
    (payload : List ChownSyscallPayload) : NSenterMessage × List Sys :=
  match chownLoop w pid payload with
  | (some m, tr) => (m, tr)
  | (none, tr) => (⟨MsgType.ChownSyscallResponse, Payload.pstr ""⟩, tr)

/-- Agent side of `MountInfo` (`processMountInfoRequest`, main.go:1191):
extract the agent's own mountinfo records (via the mount service, outside
src/, abstracted by the oracle) and reply with them. -/
def processMountInfoRequest (w : World) : NSenterMessage × List Sys :=
  match w.mountInfo with
  | Except.error e => (⟨MsgType.ErrorResponse, Payload.pioErr e⟩, [])
  | Except.ok records => (⟨MsgType.MountInfoResponse, Payload.pmountInfo records⟩, [])

/-- Agent side of `MountInode` (`processMountInodeRequest`, main.go:1233):
map every received mountpoint to its inode and reply with the list. -/
def processMountInodeRequest (w : World) (pl : MountInodeReqPayload) :
    NSenterMessage × List Sys :=
  (⟨MsgType.MountInodeResponse, Payload.pmountInode (pl.Mountpoints.map w.fileInode)⟩, [])

/-- Agent side of `Sleep` (`processSleepRequest`, main.go:1254): parse the
interval with `strconv.ParseInt`; on success sleep (no observable effect
here) and reply `SleepResponse` with an empty-string payload. -/
def processSleepRequest (pl : SleepReqPayload) : NSenterMessage × List Sys :=
  match goParseInt pl.Ival with
  | Except.error e => (⟨MsgType.ErrorResponse, Payload.pioErr e⟩, [])
  | Except.ok _ => (⟨MsgType.SleepResponse, Payload.pstr ""⟩, [])

/-- Go's `int32(x)` applied to a `uint32` value `x` (two's-complement
reinterpretation). -/
def toInt32 (x : Nat) : Int :=
  if x % 2 ^ 32 < 2 ^ 31 then (x % 2 ^ 32 : Nat)
  else (x % 2 ^ 32 : Nat) - 2 ^ 32

/-- Go's `uint32(i)` applied to an `int32` value `i` (two's-complement
reinterpretation). -/
def toUInt32conv (i : Int) : Nat := (i % 2 ^ 32).toNat

/-- Master side of the credential channel (`SendRequest`, main.go:714): the
`syscall.Ucred` sent over the socket carries `Pid: int32(e.Pid)`, where
`e.Pid` is the original caller's pid. -/
def sendCredentialsPid (ePid : Nat) : Int := toInt32 ePid

/-- Agent side of the credential channel (`getProcCreds`, main.go:1157):
after receiving and parsing the `SCM_CREDENTIALS` control message, the
event's pid is set to `uint32(procCred.Pid)`; the grand-child's own
kernel-assigned pid is never consulted. -/
def getProcCredsPid (credPid : Int) : Nat := toUInt32conv credPid

/-- Outcome of the agent's `processRequest` (main.go:1279). -/
inductive AgentOutcome
  /-- A `process*` handler ran and left a response message in `e.ResMsg`. -/
  | reply (m : NSenterMessage) (tr : List Sys)
  /-- A `process*` handler returned nil without setting `e.ResMsg`
  (the umount resolution-failure path): `Init` will dereference a nil
  `ResMsg` when marshaling. -/
  | noReply (tr : List Sys)
  /-- `processRequest` itself returned an error (credential read or payload
  decode failure): `Init` converts it to an `ErrorResponse`. -/
  | transportErr (e : IOerror)
  /-- A Go runtime panic (index out of range on an empty mount batch). -/
  | panicked
deriving DecidableEq

/-- Decode side of the two-phase request decode: Go's
`json.Unmarshal(payload, &p)` of a JSON `null` payload is a no-op that
leaves `p` at its zero value, and a payload of the wrong shape fails the
unmarshal.  These zero values are the ones below. -/
def zeroLookup : LookupPayload := ⟨""⟩

/-- Zero value of `domain.OpenFilePayload`. -/
def zeroOpen : OpenFilePayload := ⟨"", "", ""⟩

/-- Zero value of `domain.ReadFilePayload`. -/
def zeroRead : ReadFilePayload := ⟨""⟩

/-- Zero value of `domain.WriteFilePayload`. -/
def zeroWrite : WriteFilePayload := ⟨"", ""⟩

/-- Zero value of `domain.ReadDirPayload`. -/
def zeroReadDir : ReadDirPayload := ⟨""⟩

/-- Zero value of `domain.MountInodeReqPayload`. -/
def zeroInodeReq : MountInodeReqPayload := ⟨[]⟩

/-- Zero value of `domain.SleepReqPayload`. -/
def zeroSleep : SleepReqPayload := ⟨""⟩

/-- Error produced when a variant payload fails to unmarshal. -/
def decodeFailure : IOerror := ⟨"payload decode failure"⟩

/-- Agent side `processRequest` (main.go:1279): read the caller
credentials from the socket (`getProcCreds`; on failure return the error),
decode the envelope header, decode the payload according to the header
tag, and dispatch to the matching `process*` handler.  An unknown tag
replies `ErrorResponse` with the string payload "Unsupported request". -/
def processRequest (w : World) (credPid : Int) (msg : NSenterMessage) : AgentOutcome :=
  match w.credErr with
  | some e => AgentOutcome.transportErr e
  | none =>
    let pid := getProcCredsPid credPid
    match msg.Mtype, msg.Payload with
    | MsgType.LookupRequest, Payload.plookup pl =>
        let r := processLookupRequest w pl
        AgentOutcome.reply r.1 r.2
    | MsgType.LookupRequest, Payload.pnil =>
        let r := processLookupRequest w zeroLookup
        AgentOutcome.reply r.1 r.2
    | MsgType.LookupRequest, _ => AgentOutcome.transportErr decodeFailure
    | MsgType.OpenFileRequest, Payload.popen pl =>
        let r := processOpenFileRequest w pl
        AgentOutcome.reply r.1 r.2
    | MsgType.OpenFileRequest, Payload.pnil =>
        let r := processOpenFileRequest w zeroOpen
        AgentOutcome.reply r.1 r.2
    | MsgType.OpenFileRequest, _ => AgentOutcome.transportErr decodeFailure
    | MsgType.ReadFileRequest, Payload.pread pl =>
        let r := processFileReadRequest w pl
        AgentOutcome.reply r.1 r.2
    | MsgType.ReadFileRequest, Payload.pnil =>
        let r := processFileReadRequest w zeroRead
        AgentOutcome.reply r.1 r.2
    | MsgType.ReadFileRequest, _ => AgentOutcome.transportErr decodeFailure
    | MsgType.WriteFileRequest, Payload.pwrite pl =>
        let r := processFileWriteRequest w pl
        AgentOutcome.reply r.1 r.2
    | MsgType.WriteFileRequest, Payload.pnil =>
        let r := processFileWriteRequest w zeroWrite
        AgentOutcome.reply r.1 r.2
    | MsgType.WriteFileRequest, _ => AgentOutcome.transportErr decodeFailure
    | MsgType.ReadDirRequest, Payload.preaddir pl =>
        let r := processDirReadRequest w pl
        AgentOutcome.reply r.1 r.2
    | MsgType.ReadDirRequest, Payload.pnil =>
        let r := processDirReadRequest w zeroReadDir
        AgentOutcome.reply r.1 r.2
    | MsgType.ReadDirRequest, _ => AgentOutcome.transportErr decodeFailure
    | MsgType.MountSyscallRequest, Payload.pmountReq l =>
        match processMountSyscallRequest w pid l with
        | some r => AgentOutcome.reply r.1 r.2
        | none => AgentOutcome.panicked
    | MsgType.MountSyscallRequest, Payload.pnil => AgentOutcome.panicked
    | MsgType.MountSyscallRequest, _ => AgentOutcome.transportErr decodeFailure
    | MsgType.UmountSyscallRequest, Payload.pumountReq l =>
        match processUmountSyscallRequest w pid l with
        | (some m, tr) => AgentOutcome.reply m tr
        | (none, tr) => AgentOutcome.noReply tr
    | MsgType.UmountSyscallRequest, Payload.pnil =>
        AgentOutcome.reply ⟨MsgType.UmountSyscallResponse, Payload.pstr ""⟩ []
    | MsgType.UmountSyscallRequest, _ => AgentOutcome.transportErr decodeFailure
    | MsgType.MountInfoRequest, _ =>
        let r := processMountInfoRequest w
        AgentOutcome.reply r.1 r.2
    | MsgType.MountInodeRequest, Payload.pinodeReq pl =>
        let r := processMountInodeRequest w pl
        AgentOutcome.reply r.1 r.2
    | MsgType.MountInodeRequest, Payload.pnil =>
        let r := processMountInodeRequest w zeroInodeReq
        AgentOutcome.reply r.1 r.2
    | MsgType.MountInodeRequest, _ => AgentOutcome.transportErr decodeFailure
    | MsgType.ChownSyscallRequest, Payload.pchownReq l =>
        let r := processChownSyscallRequest w pid l
        AgentOutcome.reply r.1 r.2
    | MsgType.ChownSyscallRequest, Payload.pnil =>
        let r := processChownSyscallRequest w pid []
        AgentOutcome.reply r.1 r.2
    | MsgType.ChownSyscallRequest, _ => AgentOutcome.transportErr decodeFailure
    | MsgType.SleepRequest, Payload.psleep pl =>
        let r := processSleepRequest pl
        AgentOutcome.reply r.1 r.2
    | MsgType.SleepRequest, Payload.pnil =>
        let r := processSleepRequest zeroSleep
        AgentOutcome.reply r.1 r.2
    | MsgType.SleepRequest, _ => AgentOutcome.transportErr decodeFailure
    | _, _ =>
        AgentOutcome.reply ⟨MsgType.ErrorResponse, Payload.pstr "Unsupported request"⟩ []

/-- Zero value of `domain.FileInfo` (what `json.Unmarshal` of `null` leaves
in `var p domain.FileInfo`). -/
def zeroFileInfo : FileInfo := ⟨"", 0, 0, 0, false, 0⟩

/-- Master side `processResponse` (main.go:355): decode the envelope
header, then decode the payload according to the response tag and rebuild
`e.ResMsg`.  Faithful to the Go switch: `WriteFileResponse`,
`MountSyscallResponse`, `UmountSyscallResponse`, `ChownSyscallResponse` and
`SleepResponse` ignore the wire payload and store the empty string; the
other variants unmarshal the payload into the declared Go type, a JSON
`null` (`pnil`) leaving the zero value; a payload of the wrong shape is an
unmarshal error; an unknown tag is the "unsupported message" error. -/
def processResponse (m : NSenterMessage) : Except IOerror NSenterMessage :=
  match m.Mtype, m.Payload with
  | MsgType.LookupResponse, Payload.pfileInfo fi =>
      Except.ok ⟨m.Mtype, Payload.pfileInfo fi⟩
  | MsgType.LookupResponse, Payload.pnil =>
      Except.ok ⟨m.Mtype, Payload.pfileInfo zeroFileInfo⟩
  | MsgType.LookupResponse, _ => Except.error decodeFailure
  | MsgType.OpenFileResponse, Payload.pint n => Except.ok ⟨m.Mtype, Payload.pint n⟩
  | MsgType.OpenFileResponse, Payload.pnil => Except.ok ⟨m.Mtype, Payload.pint 0⟩
  | MsgType.OpenFileResponse, _ => Except.error decodeFailure
  | MsgType.ReadFileResponse, Payload.pstr s => Except.ok ⟨m.Mtype, Payload.pstr s⟩
  | MsgType.ReadFileResponse, Payload.pnil => Except.ok ⟨m.Mtype, Payload.pstr ""⟩
  | MsgType.ReadFileResponse, _ => Except.error decodeFailure
  | MsgType.WriteFileResponse, _ => Except.ok ⟨m.Mtype, Payload.pstr ""⟩
  | MsgType.ReadDirResponse, Payload.pfiList l => Except.ok ⟨m.Mtype, Payload.pfiList l⟩
  | MsgType.ReadDirResponse, Payload.pnil => Except.ok ⟨m.Mtype, Payload.pfiList []⟩
  | MsgType.ReadDirResponse, _ => Except.error decodeFailure
  | MsgType.MountSyscallResponse, _ => Except.ok ⟨m.Mtype, Payload.pstr ""⟩
  | MsgType.UmountSyscallResponse, _ => Except.ok ⟨m.Mtype, Payload.pstr ""⟩
  | MsgType.MountInfoResponse, Payload.pmountInfo d =>
      Except.ok ⟨m.Mtype, Payload.pmountInfo d⟩
  | MsgType.MountInfoResponse, Payload.pnil => Except.ok ⟨m.Mtype, Payload.pmountInfo []⟩
  | MsgType.MountInfoResponse, _ => Except.error decodeFailure
  | MsgType.MountInodeResponse, Payload.pmountInode d =>
      Except.ok ⟨m.Mtype, Payload.pmountInode d⟩
  | MsgType.MountInodeResponse, Payload.pnil =>
      Except.ok ⟨m.Mtype, Payload.pmountInode []⟩
  | MsgType.MountInodeResponse, _ => Except.error decodeFailure
  | MsgType.ChownSyscallResponse, _ => Except.ok ⟨m.Mtype, Payload.pstr ""⟩
  | MsgType.SleepResponse, _ => Except.ok ⟨m.Mtype, Payload.pstr ""⟩
  | MsgType.ErrorResponse, Payload.pioErr e => Except.ok ⟨m.Mtype, Payload.pioErr e⟩
  | MsgType.ErrorResponse, Payload.pnil => Except.ok ⟨m.Mtype, Payload.pioErr ⟨""⟩⟩
  | MsgType.ErrorResponse, _ => Except.error decodeFailure
  | _, _ => Except.error ⟨"Received unsupported nsenterEvent message."⟩

/-- A call into the zombie reaper, in program order. -/
inductive ReaperCall
  | started
  | ended
  | reapReq
deriving DecidableEq, BEq

/-- Which of the fallible steps of `SendRequest` (main.go:593) fail.  Each
field corresponds to one error-return site, in program order. -/
structure SendWorld where
  sockPairErr : Bool
  sockOptErr : Bool
  startErr : Bool
  copyErr : Bool
  waitErr : Bool
  statusFail : Bool
  decodePidErr : Bool
  findFirstErr : Bool
  findGrandErr : Bool
  sendmsgErr : Bool
  marshalErr : Bool
  writeErr : Bool
  procRespErr : Bool
deriving DecidableEq

/-- Control-flow skeleton of `SendRequest` (main.go:593): returns the
ordered list of reaper calls made on the taken path and whether the method
returned an error.  Each branch mirrors one `if err != nil` block of the
source; in particular the `SetsockoptInt` failure (main.go:611) and the
credential `Sendmsg` failure (main.go:719) return without calling
`nsenterEnded`, and an async request returns right after writing the
payload, leaving the matching `nsenterEnded` to `TerminateRequest`. -/
def sendRequest (w : SendWorld) (async : Bool) : List ReaperCall × Bool :=
  if w.sockPairErr then ([ReaperCall.started, ReaperCall.ended], true)
  else if w.sockOptErr then ([ReaperCall.started], true)
  else if w.startErr then ([ReaperCall.started, ReaperCall.ended], true)
  else if w.copyErr then ([ReaperCall.started, ReaperCall.reapReq, ReaperCall.ended], true)
  else if w.waitErr then ([ReaperCall.started, ReaperCall.reapReq, ReaperCall.ended], true)
  else if w.statusFail then
    ([ReaperCall.started, ReaperCall.reapReq, ReaperCall.ended], true)
  else if w.decodePidErr then ([ReaperCall.started, ReaperCall.ended], true)
  else if w.findFirstErr then ([ReaperCall.started, ReaperCall.ended], true)
  else if w.findGrandErr then ([ReaperCall.started, ReaperCall.ended], true)
  else if w.sendmsgErr then ([ReaperCall.started, ReaperCall.reapReq], true)
  else if w.marshalErr then
    ([ReaperCall.started, ReaperCall.reapReq, ReaperCall.ended], true)
  else if w.writeErr then ([ReaperCall.started, ReaperCall.reapReq, ReaperCall.ended], true)
  else if async then ([ReaperCall.started], false)
  else if w.procRespErr then
    ([ReaperCall.started, ReaperCall.reapReq, ReaperCall.ended], true)
  else ([ReaperCall.started, ReaperCall.ended], false)

/-- Control-flow skeleton of `TerminateRequest` (main.go:773): `nsenterEnded`
is deferred at entry and therefore runs exactly once on every path; the
shutdown-failure and kill-failure paths additionally defer a reap request,
which (LIFO) executes before the deferred `nsenterEnded`. -/
def terminateRequest (hasProcess shutdownErr killErr : Bool) : List ReaperCall × Bool :=
  if !hasProcess then ([ReaperCall.ended], false)
  else if shutdownErr then ([ReaperCall.reapReq, ReaperCall.ended], true)
  else if killErr then ([ReaperCall.reapReq, ReaperCall.ended], true)
  else ([ReaperCall.ended], false)

/-- `domain.EmuResource` minus its mutex: kind, mode, enabled flag.  The
mutex is a `sync.Mutex` value embedded in the struct; its identity is
modelled separately in `GetResourceMutex` below. -/
structure EmuResource where
  Kind : Nat
  Mode : Nat
  Enabled : Bool
deriving DecidableEq

/-- `domain.FileEmuResource` kind tag. -/
def FileEmuResource : Nat := 0

/-- The `EmuResourceMap` of `ProcSysNetUnix_Handler`
(procSysNetUnix.go:46): the single emulated leaf `max_dgram_qlen`, a file
resource with mode 0644, enabled.  In Go it is a `map[string]domain.EmuResource`
— a map of struct VALUES, not pointers. -/
def procSysNetUnixEmuResourceMap : List (String × EmuResource) :=
  [("max_dgram_qlen", ⟨FileEmuResource, 420, true⟩)]

/-- `GetResourceMutex` of the ProcSysNetUnix handler
(procSysNetUnix.go:203).  The Go body is

  resource, ok := h.EmuResourceMap[s]; if !ok { return nil }
  return &resource.Mutex

Indexing a Go map of struct values copies the struct into the local
variable `resource`, so `&resource.Mutex` is the address of the mutex
field of that per-call copy, not of the mutex stored in the map entry.
Mutex identity is modelled by an allocation counter: every executed call
that finds the resource returns a fresh address. -/
def GetResourceMutex (m : List (String × EmuResource)) (s : String) (nextAddr : Nat) :
    Option Nat × Nat :=
  match m.lookup s with
  | none => (none, nextAddr)
  | some _ => (some nextAddr, nextAddr + 1)

/-- `domain.IOnodeIface` as the handler uses it: a name (leaf) and a path. -/
structure IOnode where
  Name : String
  Path : String
deriving DecidableEq

/-- `domain.HandlerRequest`: the per-FUSE-op context.  Only the id and the
read offset matter here; FUSE read offsets are non-negative, so the
`int64` offset is modelled as a Nat. -/
structure HandlerRequest where
  ID : Nat
  Offset : Nat
deriving DecidableEq

/-- Result of a handler `Read`: byte count plus data, end-of-file
(Go `return 0, io.EOF`), or an error. -/
inductive ReadResult
  | bytes (n : Nat) (s : String)
  | eof
  | rerr (e : IOerror)
deriving DecidableEq

/-- The delegate obtained from the handler registry
(`h.Service.FindHandler("/proc/sys/")`): its `Read` and `ReadDirAll`
results are opaque to the ProcSysNetUnix handler. -/
structure DelegateHandler where
  read : IOnode → HandlerRequest → ReadResult
  readDirAll : IOnode → HandlerRequest → Except IOerror (List FileInfo)

/-- The handler registry as seen from the ProcSysNetUnix handler. -/
structure HandlerService where
  findHandler : String → Option DelegateHandler

/-- One agent operation issued by a handler through the NSX fabric. -/
inductive HandlerOp
  | readFileOp (path : String)
deriving DecidableEq

/-- Modelled from the spec: `readFileInt` (a common handler helper not
included under src/).  Per spec section 8, scenario 1, it issues a
`ReadFile` agent operation against the node's path and returns the trimmed
content; the agent side of that operation is `processFileReadRequest`
(main.go:897), which is in src/ and is invoked here directly.  The returned
int is the byte count of the trimmed content handed back to FUSE. -/
def readFileInt (w : World) (n : IOnode) : Except IOerror (Nat × String) × List HandlerOp :=
  match (processFileReadRequest w ⟨n.Path⟩).1 with
  | ⟨MsgType.ReadFileResponse, Payload.pstr s⟩ =>
      (Except.ok (s.length, s), [HandlerOp.readFileOp n.Path])
  | ⟨MsgType.ErrorResponse, Payload.pioErr e⟩ =>
      (Except.error e, [HandlerOp.readFileOp n.Path])
  | _ => (Except.error ⟨"unexpected response"⟩, [HandlerOp.readFileOp n.Path])

/-- `Read` of the ProcSysNetUnix handler (procSysNetUnix.go:109): an offset
greater than zero returns 0 bytes and EOF immediately; at offset zero the
emulated resource `max_dgram_qlen` goes through `readFileInt`, and any
other resource is delegated to the `/proc/sys/` common handler (an error
if that handler is not registered). -/
def procSysNetUnixRead (w : World) (svc : HandlerService) (n : IOnode)
    (req : HandlerRequest) : ReadResult × List HandlerOp :=
  if req.Offset > 0 then (ReadResult.eof, [])
  else if n.Name = "max_dgram_qlen" then
    match readFileInt w n with
    | (Except.ok r, ops) => (ReadResult.bytes r.1 r.2, ops)
    | (Except.error e, ops) => (ReadResult.rerr e, ops)
  else
    match svc.findHandler "/proc/sys/" with
    | none => (ReadResult.rerr ⟨"No /proc/sys/ handler found"⟩, [])
    | some d => (d.read n req, [])

/-- `ReadDirAll` of the ProcSysNetUnix handler (procSysNetUnix.go:161):
look up the `/proc/sys/` common handler (an error if absent), call its
`ReadDirAll`, and append its entries only when it succeeded — a delegate
error is silently discarded, leaving the nil entry list and a nil error. -/
def procSysNetUnixReadDirAll (svc : HandlerService) (n : IOnode)
    (req : HandlerRequest) : Except IOerror (List FileInfo) :=
  match svc.findHandler "/proc/sys/" with
  | none => Except.error ⟨"No /proc/sys/ handler found"⟩
  | some d =>
    match d.readDirAll n req with
    | Except.ok entries => Except.ok entries
    | Except.error _ => Except.ok []

/-- A batch element after the in-place path resolution of the mount loop:
source and target replaced by their resolved forms `R`. -/
def resolvedPayload (R : String → String) (q : MountSyscallPayload) :
    MountSyscallPayload :=
  { q with Source := R q.Source, Target := R q.Target }

/-- The mount syscall predicted for a batch element whose paths resolve via
`R`: used to state ordering properties of the mount trace. -/
def mountCallOf (R : String → String) (q : MountSyscallPayload) : Sys :=
  Sys.mount (R q.Source) (R q.Target) q.FsType q.Flags q.Data

/-- The rollback calls predicted for a successfully mounted prefix `pre`
(in submission order) whose paths resolve via `R`: its non-remount
elements' resolved targets, unmounted in reverse order. -/
def rollbackCallsOf (R : String → String) (pre : List MountSyscallPayload) : List Sys :=
  pre.reverse.filterMap fun q =>
    if q.Flags &&& MS_REMOUNT = MS_REMOUNT then none
    else some (Sys.umount (R q.Target) 0)

/-- The unmount syscall predicted for a batch element whose target resolves
via `R`. -/
def umountCallOf (R : String → String) (q : UmountSyscallPayload) : Sys :=
  Sys.umount (R q.Target) q.Flags

/-- A traced syscall whose paths went through the caller-pid resolution:
each mount/unmount/chown path used is an output of `w.resolve pid`.  The
file-operation syscalls never resolve, so they satisfy this vacuously. -/
def usesResolvedPaths (w : World) (pid : Nat) : Sys → Prop
  | Sys.mount s t _ _ _ =>
      (∃ s0, w.resolve pid s0 = Except.ok s) ∧ (∃ t0, w.resolve pid t0 = Except.ok t)
  | Sys.umount t _ => ∃ t0, w.resolve pid t0 = Except.ok t
  | Sys.chown t _ _ => ∃ t0, w.resolve pid t0 = Except.ok t
  | _ => True

/-- Whether a traced syscall is a mount (used to state that unmount batches
never mount anything back). -/
def isMountCall : Sys → Bool
  | Sys.mount _ _ _ _ _ => true
  | _ => false

/-- The eleven request tags of the agent operation catalog. -/
def requestTagB : MsgType → Bool
  | MsgType.LookupRequest => true
  | MsgType.OpenFileRequest => true
  | MsgType.ReadFileRequest => true
  | MsgType.WriteFileRequest => true
  | MsgType.ReadDirRequest => true
  | MsgType.MountSyscallRequest => true
  | MsgType.UmountSyscallRequest => true
  | MsgType.MountInfoRequest => true
  | MsgType.MountInodeRequest => true
  | MsgType.ChownSyscallRequest => true
  | MsgType.SleepRequest => true
  | _ => false

/-- The success-response tag of each request variant. -/
def successTagOf : MsgType → MsgType
  | MsgType.LookupRequest => MsgType.LookupResponse
  | MsgType.OpenFileRequest => MsgType.OpenFileResponse
  | MsgType.ReadFileRequest => MsgType.ReadFileResponse
  | MsgType.WriteFileRequest => MsgType.WriteFileResponse
  | MsgType.ReadDirRequest => MsgType.ReadDirResponse
  | MsgType.MountSyscallRequest => MsgType.MountSyscallResponse
  | MsgType.UmountSyscallRequest => MsgType.UmountSyscallResponse
  | MsgType.MountInfoRequest => MsgType.MountInfoResponse
  | MsgType.MountInodeRequest => MsgType.MountInodeResponse
  | MsgType.ChownSyscallRequest => MsgType.ChownSyscallResponse
  | MsgType.SleepRequest => MsgType.SleepResponse
  | t => t

/-- What the master's `processResponse` makes of an agent reply payload:
it is returned unchanged, except that an `OpenFileResponse` payload is
unmarshaled into an `int` (the agent's nil payload becoming `0`) and a
`WriteFileResponse` payload is unconditionally replaced by the empty
string. -/
def patchPayload (t : MsgType) (p : Payload) : Payload :=
  if t = MsgType.OpenFileResponse then Payload.pint 0
  else if t = MsgType.WriteFileResponse then Payload.pstr ""
  else p

/-- An all-success oracle: path resolution follows the spec-modelled
`resolveProcSelf` and every kernel interaction succeeds.  Used to
instantiate witnesses and counterexamples. -/
def wOk : World where
  credErr := none
  resolve := fun pid s => Except.ok (resolveProcSelf pid s)
  stat := fun p => Except.ok ⟨p, 0, 0, 0, false, 0⟩
  openFile := fun _ _ _ => none
  readFile := fun _ => Except.ok " 30\n"
  writeFile := fun _ _ => none
  readDir := fun _ => Except.ok []
  mountErr := fun _ _ _ _ _ => none
  umountErr := fun _ _ => none
  chownErr := fun _ _ _ => none
  adjustErr := fun _ => none
  mountInfo := Except.ok []
  fileInode := fun _ => 0

/-- Oracle whose path resolution always fails (exercises the
resolution-failure paths of the batch operations). -/
def wResolveFail : World :=
  { wOk with resolve := fun _ _ => Except.error ⟨"resolve failed"⟩ }

/-- Oracle for the C1 witness: the mount of source `/bogus` fails with
`ENOENT`, everything else succeeds. -/
def wMountFail : World :=
  { wOk with mountErr := fun src _ _ _ _ =>
      if src = "/bogus" then some ⟨"ENOENT"⟩ else none }

/-- Oracle for the C8 counterexample: unmounting `/m1` fails with `EBUSY`,
everything else succeeds. -/
def wUmountFail : World :=
  { wOk with umountErr := fun tgt _ =>
      if tgt = "/m1" then some ⟨"EBUSY"⟩ else none }

/-- Trivial mount header used by concrete batches. -/
def hdr0 : MountHeader := ⟨0, 0, "/", "/", 0⟩

/-- `SendRequest` world in which every fallible step succeeds. -/
def swAllOk : SendWorld :=
  ⟨false, false, false, false, false, false, false,
    false, false, false, false, false, false⟩

/-- A delegate `/proc/sys/` handler whose `ReadDirAll` fails with `EPERM`
(used to exercise the error-discarding path). -/
def dlgErr : DelegateHandler where
  read := fun _ _ => ReadResult.eof
  readDirAll := fun _ _ => Except.error ⟨"EPERM"⟩

/-- A registry that always resolves to `dlgErr`. -/
def svcErr : HandlerService where
  findHandler := fun _ => some dlgErr

/-- The successful prefix of the spec's scenario-4 mount batch. -/
def preC1 : List MountSyscallPayload :=
  [⟨hdr0, "/a", "/m1", "bind", 0, ""⟩, ⟨hdr0, "/b", "/m2", "bind", 0, ""⟩]

/-- The failing third element of the spec's scenario-4 mount batch. -/
def badC1 : MountSyscallPayload := ⟨hdr0, "/bogus", "/m3", "bind", 0, ""⟩

/-- A reply payload is well formed for the master when `processResponse`
accepts it and returns the same tag with the patched payload. -/
def replyOk (m : NSenterMessage) : Prop :=
  processResponse m = Except.ok ⟨m.Mtype, patchPayload m.Mtype m.Payload⟩

end SysboxFS

namespace SysboxFS

/-- C7: the master sends the caller pid as `Ucred{Pid: int32(e.Pid)}` and
the agent's `getProcCreds` recovers it via `uint32(procCred.Pid)`: for
every pid representable in the `uint32`-typed `e.Pid` field, the value the
agent installs equals the caller's pid exactly, independent of any helper
process's own pid (which `getProcCreds` never consults). -/
theorem c7_credential_roundtrip (p : Nat) (h : p < 2 ^ 32) :
    getProcCredsPid (sendCredentialsPid p) = p := by
  unfold getProcCredsPid sendCredentialsPid toUInt32conv toInt32
  have h2 : p % 2 ^ 32 = p := Nat.mod_eq_of_lt h
  rw [h2]
  split <;> omega

/-- Witness for C7 at the spec's concrete pid 4242. -/
theorem c7_credential_roundtrip_witness :
    4242 < 2 ^ 32 ∧ getProcCredsPid (sendCredentialsPid 4242) = 4242 :=
  ⟨by norm_num, c7_credential_roundtrip 4242 (by norm_num)⟩

/-- C3 (claim is right, code is wrong): on the `SetsockoptInt` failure path
and on the credential `Sendmsg` failure path, `SendRequest` returns without
calling `nsenterEnded`, so the started/ended pairing the claim requires is
violated; on the all-success synchronous path the pairing does hold, and
`TerminateRequest` always makes exactly one `nsenterEnded` call. -/
theorem c3_reaper_imbalance_eval :
    ((sendRequest { swAllOk with sockOptErr := true } false).1.count ReaperCall.started = 1
      ∧ (sendRequest { swAllOk with sockOptErr := true } false).1.count ReaperCall.ended = 0)
    ∧ ((sendRequest { swAllOk with sendmsgErr := true } false).1.count ReaperCall.started = 1
      ∧ (sendRequest { swAllOk with sendmsgErr := true } false).1.count ReaperCall.ended = 0)
    ∧ (∀ hp se ke, (terminateRequest hp se ke).1.count ReaperCall.ended = 1)
    ∧ (sendRequest swAllOk false).1.count ReaperCall.started
        = (sendRequest swAllOk false).1.count ReaperCall.ended := by
  decide

/-- C6 (claim is right, code is wrong): `GetResourceMutex` indexes a map of
`EmuResource` struct values, so each call copies the entry and returns the
address of the copy's mutex; two calls with the same registered name
("max_dgram_qlen") yield two distinct mutexes, not the single mutex owned
by the resource entry. -/
theorem c6_resource_mutex_eval :
    (GetResourceMutex procSysNetUnixEmuResourceMap "max_dgram_qlen" 0).1 = some 0
    ∧ (GetResourceMutex procSysNetUnixEmuResourceMap "max_dgram_qlen"
        (GetResourceMutex procSysNetUnixEmuResourceMap "max_dgram_qlen" 0).2).1 = some 1
    ∧ (some 0 : Option Nat) ≠ some 1 := by
  decide

/-- C4 (claim is right, code is wrong): when path resolution of a chown
target fails, `processChownSyscallRequest` breaks out of its loop and then
falls through to the success branch, replying `ChownSyscallResponse` with
no syscall issued instead of the `ErrorResponse` the claim requires; the
analogous umount resolution failure leaves the response message unset
entirely. -/
theorem c4_chown_resolve_failure_eval :
    processChownSyscallRequest wResolveFail 4242 [⟨"/proc/self/fd/7", 0, 0⟩]
      = (⟨MsgType.ChownSyscallResponse, Payload.pstr ""⟩, [])
    ∧ (processUmountSyscallRequest wResolveFail 4242 [⟨"/proc/self/fd/7", 0⟩]).1 = none := by
  decide

/-- C8 counterexample: in the batch `[/m1, /m2]` where unmounting `/m1`
fails, the loop breaks at the first failure, so `/m2` is never attempted —
refuting "each target is attempted regardless of failures of earlier
targets". -/
theorem c8_umount_counterexample :
    processUmountSyscallRequest wUmountFail 4242 [⟨"/m1", 0⟩, ⟨"/m2", 0⟩]
      = (some ⟨MsgType.ErrorResponse, Payload.pioErr ⟨"EBUSY"⟩⟩, [Sys.umount "/m1" 0])
    ∧ Sys.umount "/m2" 0 ∉ [Sys.umount "/m1" 0] := by
  decide

/-- C5 counterexample: a `ReadFile` request whose path begins with
`/proc/self` is passed to the read syscall verbatim; the resolved
`/proc/4242/...` form never appears in the syscall trace, refuting the
claim that every path-taking variant resolves `/proc/self` paths. -/
theorem c5_proc_self_counterexample :
    (processFileReadRequest wOk ⟨"/proc/self/net/unix/max_dgram_qlen"⟩).2
      = [Sys.readf "/proc/self/net/unix/max_dgram_qlen"]
    ∧ strHasPrefix "/proc/self/" "/proc/self/net/unix/max_dgram_qlen" = true
    ∧ Sys.readf (resolveProcSelf 4242 "/proc/self/net/unix/max_dgram_qlen")
        ∉ (processFileReadRequest wOk ⟨"/proc/self/net/unix/max_dgram_qlen"⟩).2 := by
  decide

/-- C2 counterexample: for the `OpenFile` variant the agent's success
payload is nil, but the master unmarshals an `int` and stores `0`, so the
response payload is not deep-equal to the payload the agent produced. -/
theorem c2_roundtrip_counterexample :
    processRequest wOk 7 ⟨MsgType.OpenFileRequest, Payload.popen ⟨"/f", "0", "0"⟩⟩
      = AgentOutcome.reply ⟨MsgType.OpenFileResponse, Payload.pnil⟩ [Sys.openf "/f" 0 0]
    ∧ processResponse ⟨MsgType.OpenFileResponse, Payload.pnil⟩
      = Except.ok ⟨MsgType.OpenFileResponse, Payload.pint 0⟩
    ∧ Payload.pint 0 ≠ Payload.pnil := by
  refine ⟨by decide, by decide, by decide⟩

/-- C10: `ReadDirAll` of the ProcSysNetUnix handler never propagates an
error from the delegated `/proc/sys/` handler — a delegate failure is
discarded and the nil entry list is returned with a nil error; an error is
returned only when the `/proc/sys/` handler is absent from the registry. -/
theorem c10_readdirall_swallow (svc : HandlerService) (n : IOnode) (req : HandlerRequest) :
    (∀ d e, svc.findHandler "/proc/sys/" = some d →
      d.readDirAll n req = Except.error e →
      procSysNetUnixReadDirAll svc n req = Except.ok [])
    ∧ (svc.findHandler "/proc/sys/" = none →
      procSysNetUnixReadDirAll svc n req = Except.error ⟨"No /proc/sys/ handler found"⟩)
    ∧ (∀ e', procSysNetUnixReadDirAll svc n req = Except.error e' →
      svc.findHandler "/proc/sys/" = none) := by
  refine ⟨?_, ?_, ?_⟩
  · intro d e hd he
    simp [procSysNetUnixReadDirAll, hd, he]
  · intro h
    simp [procSysNetUnixReadDirAll, h]
  · intro e' h
    cases hf : svc.findHandler "/proc/sys/" with
    | none => rfl
    | some d =>
      exfalso
      cases hr : d.readDirAll n req <;>
        simp [procSysNetUnixReadDirAll, hf, hr] at h

/-- Witness for C10: a delegate whose `ReadDirAll` fails with `EPERM`
yields an empty successful listing. -/
theorem c10_readdirall_swallow_witness :
    procSysNetUnixReadDirAll svcErr ⟨"unix", "/proc/sys/net/unix"⟩ ⟨1, 0⟩
      = Except.ok [] :=
  (c10_readdirall_swallow svcErr ⟨"unix", "/proc/sys/net/unix"⟩ ⟨1, 0⟩).1
    dlgErr ⟨"EPERM"⟩ rfl rfl

/-- C9: a `Read` on the ProcSysNetUnix handler at an offset greater than
zero returns 0 bytes and EOF without issuing any agent operation; a read
at offset 0 of the emulated resource `max_dgram_qlen` issues exactly one
`ReadFile` agent operation against the node path and returns the trimmed
content; any other resource at offset 0 is delegated. -/
theorem c9_read_offset (w : World) (svc : HandlerService) (n : IOnode)
    (req : HandlerRequest) :
    (req.Offset > 0 → procSysNetUnixRead w svc n req = (ReadResult.eof, []))
    ∧ (∀ s, req.Offset = 0 → n.Name = "max_dgram_qlen" →
        w.readFile n.Path = Except.ok s →
        procSysNetUnixRead w svc n req =
          (ReadResult.bytes (goTrimSpace s).length (goTrimSpace s),
            [HandlerOp.readFileOp n.Path]))
    ∧ (req.Offset = 0 → n.Name ≠ "max_dgram_qlen" →
        procSysNetUnixRead w svc n req =
          (match svc.findHandler "/proc/sys/" with
            | none => (ReadResult.rerr ⟨"No /proc/sys/ handler found"⟩, [])
            | some d => (d.read n req, []))) := by
  refine ⟨?_, ?_, ?_⟩
  · intro h
    simp [procSysNetUnixRead, h]
  · intro s h0 hn hr
    simp [procSysNetUnixRead, h0, hn, readFileInt, processFileReadRequest, hr]
  · intro h0 hn
    simp [procSysNetUnixRead, h0, hn]

/-- Witness for C9: reading `max_dgram_qlen` at offset 0 with raw kernel
content " 30\n" yields the two trimmed bytes "30" via one `ReadFile` agent
op, and a second read at offset 5 yields EOF with no op. -/
theorem c9_read_offset_witness :
    procSysNetUnixRead wOk svcErr
        ⟨"max_dgram_qlen", "/proc/sys/net/unix/max_dgram_qlen"⟩ ⟨1, 0⟩
      = (ReadResult.bytes 2 "30",
          [HandlerOp.readFileOp "/proc/sys/net/unix/max_dgram_qlen"])
    ∧ procSysNetUnixRead wOk svcErr
        ⟨"max_dgram_qlen", "/proc/sys/net/unix/max_dgram_qlen"⟩ ⟨1, 5⟩
      = (ReadResult.eof, []) := by
  constructor
  · have h := (c9_read_offset wOk svcErr
      ⟨"max_dgram_qlen", "/proc/sys/net/unix/max_dgram_qlen"⟩ ⟨1, 0⟩).2.1
      " 30\n" rfl rfl rfl
    exact h.trans (by decide)
  · exact (c9_read_offset wOk svcErr
      ⟨"max_dgram_qlen", "/proc/sys/net/unix/max_dgram_qlen"⟩ ⟨1, 5⟩).1 (by norm_num)

/-- Every syscall traced by the umount batch handler is an unmount: the
handler never mounts anything back (no rollback). -/
lemma umount_trace_shape (w : World) (pid : Nat) :
    ∀ l : List UmountSyscallPayload,
      ∀ s ∈ (processUmountSyscallRequest w pid l).2, ∃ t f, s = Sys.umount t f
  | [] => by simp [processUmountSyscallRequest]
  | q :: rest => by
    cases hr : w.resolve pid q.Target with
    | error er => simp [processUmountSyscallRequest, hr]
    | ok tgt =>
      cases hu : w.umountErr tgt q.Flags with
      | some er =>
        simp [processUmountSyscallRequest, hr, hu]
      | none =>
        intro s hs
        simp only [processUmountSyscallRequest, hr, hu, List.mem_cons] at hs
        rcases hs with rfl | hs
        · exact ⟨tgt, q.Flags, rfl⟩
        · exact umount_trace_shape w pid rest s hs

/-- The umount batch handler on an all-success batch: every target is
resolved and unmounted in submission order, and the reply is the empty
success payload. -/
lemma umount_all_ok (w : World) (pid : Nat) (R : String → String) :
    ∀ l : List UmountSyscallPayload,
      (∀ q ∈ l, w.resolve pid q.Target = Except.ok (R q.Target)
        ∧ w.umountErr (R q.Target) q.Flags = none) →
      processUmountSyscallRequest w pid l =
        (some ⟨MsgType.UmountSyscallResponse, Payload.pstr ""⟩, l.map (umountCallOf R))
  | [] => by simp [processUmountSyscallRequest]
  | q :: rest => by
    intro h
    obtain ⟨h1, h2⟩ := h q (List.mem_cons_self q rest)
    have ih := umount_all_ok w pid R rest fun r hr => h r (List.mem_cons_of_mem q hr)
    simp [processUmountSyscallRequest, h1, h2, ih, umountCallOf]

/-- The umount batch handler when the first failure occurs after the
all-success prefix `pre`: the loop unmounts `pre` in order, attempts the
failing target, replies `ErrorResponse`, and never reaches the rest. -/
lemma umount_first_fail (w : World) (pid : Nat) (R : String → String)
    (bad : UmountSyscallPayload) (rest : List UmountSyscallPayload) (er : IOerror)
    (hbadR : w.resolve pid bad.Target = Except.ok (R bad.Target))
    (hbadU : w.umountErr (R bad.Target) bad.Flags = some er) :
    ∀ pre : List UmountSyscallPayload,
      (∀ q ∈ pre, w.resolve pid q.Target = Except.ok (R q.Target)
        ∧ w.umountErr (R q.Target) q.Flags = none) →
      processUmountSyscallRequest w pid (pre ++ bad :: rest) =
        (some ⟨MsgType.ErrorResponse, Payload.pioErr er⟩,
          pre.map (umountCallOf R) ++ [umountCallOf R bad])
  | [] => by
    intro _
    simp [processUmountSyscallRequest, hbadR, hbadU, umountCallOf]
  | q :: qs => by
    intro h
    obtain ⟨h1, h2⟩ := h q (List.mem_cons_self q qs)
    have ih := umount_first_fail w pid R bad rest er hbadR hbadU qs
      fun r hr => h r (List.mem_cons_of_mem q hr)
    simp [processUmountSyscallRequest, h1, h2, ih, umountCallOf]

/-- C8 as amended: an UmountSyscall batch is executed in submission order
up to the first failure (targets after the first failing one are not
attempted), no completed unmount is rolled back (the handler issues only
unmount syscalls, never a mount), the first unmount failure yields an
`ErrorResponse` with its error, and the all-success response is empty. -/
theorem c8_umount_amended :
    (∀ (w : World) (pid : Nat) (payload : List UmountSyscallPayload),
      ∀ s ∈ (processUmountSyscallRequest w pid payload).2, ∃ t f, s = Sys.umount t f)
    ∧ (∀ (w : World) (pid : Nat) (R : String → String)
        (payload : List UmountSyscallPayload),
      (∀ q ∈ payload, w.resolve pid q.Target = Except.ok (R q.Target)
        ∧ w.umountErr (R q.Target) q.Flags = none) →
      processUmountSyscallRequest w pid payload =
        (some ⟨MsgType.UmountSyscallResponse, Payload.pstr ""⟩,
          payload.map (umountCallOf R)))
    ∧ (∀ (w : World) (pid : Nat) (R : String → String)
        (pre rest : List UmountSyscallPayload) (bad : UmountSyscallPayload)
        (er : IOerror),
      (∀ q ∈ pre, w.resolve pid q.Target = Except.ok (R q.Target)
        ∧ w.umountErr (R q.Target) q.Flags = none) →
      w.resolve pid bad.Target = Except.ok (R bad.Target) →
      w.umountErr (R bad.Target) bad.Flags = some er →
      processUmountSyscallRequest w pid (pre ++ bad :: rest) =
        (some ⟨MsgType.ErrorResponse, Payload.pioErr er⟩,
          pre.map (umountCallOf R) ++ [umountCallOf R bad])) := by
  refine ⟨umount_trace_shape, fun w pid R l h => umount_all_ok w pid R l h, ?_⟩
  intro w pid R pre rest bad er hpre hbadR hbadU
  exact umount_first_fail w pid R bad rest er hbadR hbadU pre hpre

/-- Witness for C8 as amended: `/m0` succeeds, `/m1` fails with `EBUSY`,
`/m2` is never attempted. -/
theorem c8_umount_amended_witness :
    processUmountSyscallRequest wUmountFail 4242 [⟨"/m0", 0⟩, ⟨"/m1", 0⟩, ⟨"/m2", 0⟩]
      = (some ⟨MsgType.ErrorResponse, Payload.pioErr ⟨"EBUSY"⟩⟩,
          [Sys.umount "/m0" 0, Sys.umount "/m1" 0]) := by
  have hpre : ∀ q ∈ ([⟨"/m0", 0⟩] : List UmountSyscallPayload),
      wUmountFail.resolve 4242 q.Target = Except.ok (resolveProcSelf 4242 q.Target)
        ∧ wUmountFail.umountErr (resolveProcSelf 4242 q.Target) q.Flags = none := by
    intro q hq
    rw [List.mem_singleton] at hq
    subst hq
    exact ⟨by decide, by decide⟩
  have h := c8_umount_amended.2.2 wUmountFail 4242 (resolveProcSelf 4242)
    [⟨"/m0", 0⟩] [⟨"/m2", 0⟩] ⟨"/m1", 0⟩ ⟨"EBUSY"⟩ hpre (by decide) (by decide)
  exact h.trans (by decide)

/-- The mount loop when the prefix `pre` fully succeeds and the mount
syscall of `bad` fails: the loop returns the resolved prefix as the
successful elements, the failing error, and the trace of mount attempts
for the prefix followed by the failing attempt, all in submission
order. -/
lemma mountLoop_fail_spec (w : World) (pid : Nat) (R : String → String)
    (bad : MountSyscallPayload) (rest : List MountSyscallPayload) (er : IOerror)
    (hS : w.resolve pid bad.Source = Except.ok (R bad.Source))
    (hT : w.resolve pid bad.Target = Except.ok (R bad.Target))
    (hM : w.mountErr (R bad.Source) (R bad.Target) bad.FsType bad.Flags bad.Data
      = some er) :
    ∀ pre : List MountSyscallPayload,
      (∀ q ∈ pre, w.resolve pid q.Source = Except.ok (R q.Source)
        ∧ w.resolve pid q.Target = Except.ok (R q.Target)
        ∧ w.mountErr (R q.Source) (R q.Target) q.FsType q.Flags q.Data = none) →
      mountLoop w pid (pre ++ bad :: rest) =
        (pre.map (resolvedPayload R), some er, (pre ++ [bad]).map (mountCallOf R))
  | [] => by
    intro _
    simp [mountLoop, hS, hT, hM, mountCallOf]
  | q :: qs => by
    intro h
    obtain ⟨h1, h2, h3⟩ := h q (List.mem_cons_self q qs)
    have ih := mountLoop_fail_spec w pid R bad rest er hS hT hM qs
      fun r hr => h r (List.mem_cons_of_mem q hr)
    simp [mountLoop, h1, h2, h3, ih, resolvedPayload, mountCallOf]

/-- The mount loop when the prefix `pre` fully succeeds and the path
resolution of `bad` fails (at its source, or at its target after the
source resolved): same as `mountLoop_fail_spec` but with no failing mount
attempt in the trace. -/
lemma mountLoop_resolvefail_spec (w : World) (pid : Nat) (R : String → String)
    (bad : MountSyscallPayload) (rest : List MountSyscallPayload) (er : IOerror)
    (hbad : w.resolve pid bad.Source = Except.error er
      ∨ (w.resolve pid bad.Source = Except.ok (R bad.Source)
          ∧ w.resolve pid bad.Target = Except.error er)) :
    ∀ pre : List MountSyscallPayload,
      (∀ q ∈ pre, w.resolve pid q.Source = Except.ok (R q.Source)
        ∧ w.resolve pid q.Target = Except.ok (R q.Target)
        ∧ w.mountErr (R q.Source) (R q.Target) q.FsType q.Flags q.Data = none) →
      mountLoop w pid (pre ++ bad :: rest) =
        (pre.map (resolvedPayload R), some er, pre.map (mountCallOf R))
  | [] => by
    intro _
    rcases hbad with h | ⟨h1, h2⟩
    · simp [mountLoop, h]
    · simp [mountLoop, h1, h2]
  | q :: qs => by
    intro h
    obtain ⟨h1, h2, h3⟩ := h q (List.mem_cons_self q qs)
    have ih := mountLoop_resolvefail_spec w pid R bad rest er hbad qs
      fun r hr => h r (List.mem_cons_of_mem q hr)
    simp [mountLoop, h1, h2, h3, ih, resolvedPayload, mountCallOf]

/-- Rolling back a resolved prefix issues exactly the predicted reverse
unmount calls: the resolution only rewrote sources and targets, leaving
the remount flags intact. -/
lemma rollbackMounts_map (R : String → String) (pre : List MountSyscallPayload) :
    rollbackMounts (pre.map (resolvedPayload R)) = rollbackCallsOf R pre := by
  unfold rollbackMounts rollbackCallsOf
  rw [← List.map_reverse, List.filterMap_map]
  have hfun : ((fun q : MountSyscallPayload =>
      if q.Flags &&& MS_REMOUNT = MS_REMOUNT then none
      else some (Sys.umount q.Target 0)) ∘ resolvedPayload R)
      = fun q : MountSyscallPayload =>
      if q.Flags &&& MS_REMOUNT = MS_REMOUNT then none
      else some (Sys.umount (R q.Target) 0) := by
    funext q
    rfl
  rw [hfun]

/-- Unfolding of `processMountSyscallRequest` on a non-empty batch whose
first element passes the overlay personality check. -/
lemma processMount_eq (w : World) (pid : Nat) (q : MountSyscallPayload)
    (qs : List MountSyscallPayload)
    (hhead : (if q.FsType = "overlay" then w.adjustErr q.Header else none) = none) :
    processMountSyscallRequest w pid (q :: qs) =
      match (mountLoop w pid (q :: qs)).2.1 with
      | some er => some (⟨MsgType.ErrorResponse, Payload.pioErr er⟩,
          (mountLoop w pid (q :: qs)).2.2 ++ rollbackMounts (mountLoop w pid (q :: qs)).1)
      | none => some (⟨MsgType.MountSyscallResponse, Payload.pstr ""⟩,
          (mountLoop w pid (q :: qs)).2.2) := by
  simp [processMountSyscallRequest, hhead]

/-- C1: in a MountSyscall batch whose prefix `pre` succeeds and whose next
element `bad` fails — either its mount syscall (first conjunct) or its
path resolution (second conjunct) — the mounts are attempted in submission
order, every successful non-remount mount is unmounted again in reverse
order (`rollbackCallsOf`), remount entries are left in place, and the
response is an `ErrorResponse` carrying the failing error. -/
theorem c1_mount_batch_rollback (w : World) (pid : Nat) (R : String → String)
    (pre rest : List MountSyscallPayload) (bad : MountSyscallPayload) (er : IOerror)
    (hov : ∀ q ∈ pre ++ bad :: rest, q.FsType = "overlay" → w.adjustErr q.Header = none)
    (hpre : ∀ q ∈ pre, w.resolve pid q.Source = Except.ok (R q.Source)
      ∧ w.resolve pid q.Target = Except.ok (R q.Target)
      ∧ w.mountErr (R q.Source) (R q.Target) q.FsType q.Flags q.Data = none) :
    (w.resolve pid bad.Source = Except.ok (R bad.Source) →
      w.resolve pid bad.Target = Except.ok (R bad.Target) →
      w.mountErr (R bad.Source) (R bad.Target) bad.FsType bad.Flags bad.Data = some er →
      processMountSyscallRequest w pid (pre ++ bad :: rest) =
        some (⟨MsgType.ErrorResponse, Payload.pioErr er⟩,
          (pre ++ [bad]).map (mountCallOf R) ++ rollbackCallsOf R pre))
    ∧ ((w.resolve pid bad.Source = Except.error er
        ∨ (w.resolve pid bad.Source = Except.ok (R bad.Source)
            ∧ w.resolve pid bad.Target = Except.error er)) →
      processMountSyscallRequest w pid (pre ++ bad :: rest) =
        some (⟨MsgType.ErrorResponse, Payload.pioErr er⟩,
          pre.map (mountCallOf R) ++ rollbackCallsOf R pre)) := by
  have hhead : ∀ x xs, pre ++ bad :: rest = x :: xs →
      (if x.FsType = "overlay" then w.adjustErr x.Header else none) = none := by
    intro x xs hx
    by_cases hb : x.FsType = "overlay"
    · have hm : x ∈ pre ++ bad :: rest := by
        rw [hx]
        exact List.mem_cons_self x xs
      simp [hb, hov x hm hb]
    · simp [hb]
  constructor
  · intro hS hT hM
    have hl := mountLoop_fail_spec w pid R bad rest er hS hT hM pre hpre
    cases hc : pre ++ bad :: rest with
    | nil => exact absurd hc (List.append_ne_nil_of_right_ne_nil pre (by simp))
    | cons x xs =>
      rw [hc] at hl
      rw [processMount_eq w pid x xs (hhead x xs hc), hl]
      simp [rollbackMounts_map]
  · intro hbad
    have hl := mountLoop_resolvefail_spec w pid R bad rest er hbad pre hpre
    cases hc : pre ++ bad :: rest with
    | nil => exact absurd hc (List.append_ne_nil_of_right_ne_nil pre (by simp))
    | cons x xs =>
      rw [hc] at hl
      rw [processMount_eq w pid x xs (hhead x xs hc), hl]
      simp [rollbackMounts_map]

/-- Witness for C1, the spec's scenario 4: bind mounts `/a` to `/m1` and
`/b` to `/m2` succeed, the mount of `/bogus` fails with `ENOENT`; the trace
shows the three attempts in order followed by unmounts of `/m2` then
`/m1`, and the response carries `ENOENT`. -/
theorem c1_mount_batch_rollback_witness :
    processMountSyscallRequest wMountFail 4242 (preC1 ++ [badC1])
      = some (⟨MsgType.ErrorResponse, Payload.pioErr ⟨"ENOENT"⟩⟩,
          [Sys.mount "/a" "/m1" "bind" 0 "", Sys.mount "/b" "/m2" "bind" 0 "",
            Sys.mount "/bogus" "/m3" "bind" 0 "",
            Sys.umount "/m2" 0, Sys.umount "/m1" 0]) := by
  have hov : ∀ q ∈ preC1 ++ badC1 :: ([] : List MountSyscallPayload),
      q.FsType = "overlay" → wMountFail.adjustErr q.Header = none := by
    intro q hq hb
    simp only [preC1, badC1, List.mem_append, List.mem_cons, List.mem_singleton,
      List.not_mem_nil, or_false] at hq
    rcases hq with (hq | hq) | hq <;> subst hq <;> exact absurd hb (by decide)
  have hpre : ∀ q ∈ preC1,
      wMountFail.resolve 4242 q.Source = Except.ok (resolveProcSelf 4242 q.Source)
      ∧ wMountFail.resolve 4242 q.Target = Except.ok (resolveProcSelf 4242 q.Target)
      ∧ wMountFail.mountErr (resolveProcSelf 4242 q.Source)
          (resolveProcSelf 4242 q.Target) q.FsType q.Flags q.Data = none := by
    intro q hq
    simp only [preC1, List.mem_cons, List.mem_singleton, List.not_mem_nil,
      or_false] at hq
    rcases hq with hq | hq <;> subst hq <;> exact ⟨by decide, by decide, by decide⟩
  have h := (c1_mount_batch_rollback wMountFail 4242 (resolveProcSelf 4242)
    preC1 [] badC1 ⟨"ENOENT"⟩ hov hpre).1 (by decide) (by decide) (by decide)
  exact h.trans (by decide)

/-- Every successfully mounted element recorded by the mount loop carries
resolved paths, and every syscall in its trace uses resolved paths. -/
lemma mountLoop_resolved (w : World) (pid : Nat) :
    ∀ l : List MountSyscallPayload,
      (∀ p ∈ (mountLoop w pid l).1,
        (∃ s0, w.resolve pid s0 = Except.ok p.Source)
        ∧ (∃ t0, w.resolve pid t0 = Except.ok p.Target))
      ∧ (∀ s ∈ (mountLoop w pid l).2.2, usesResolvedPaths w pid s)
  | [] => by simp [mountLoop]
  | q :: rest => by
    cases hS : w.resolve pid q.Source with
    | error er => simp [mountLoop, hS]
    | ok src =>
      cases hT : w.resolve pid q.Target with
      | error er => simp [mountLoop, hS, hT]
      | ok tgt =>
        cases hM : w.mountErr src tgt q.FsType q.Flags q.Data with
        | some er =>
          constructor
          · simp [mountLoop, hS, hT, hM]
          · intro s hs
            simp only [mountLoop, hS, hT, hM, List.mem_singleton] at hs
            subst hs
            exact ⟨⟨q.Source, hS⟩, ⟨q.Target, hT⟩⟩
        | none =>
          have ih := mountLoop_resolved w pid rest
          constructor
          · intro p hp
            simp only [mountLoop, hS, hT, hM, List.mem_cons] at hp
            rcases hp with rfl | hp
            · exact ⟨⟨q.Source, hS⟩, ⟨q.Target, hT⟩⟩
            · exact ih.1 p hp
          · intro s hs
            simp only [mountLoop, hS, hT, hM, List.mem_cons] at hs
            rcases hs with rfl | hs
            · exact ⟨⟨q.Source, hS⟩, ⟨q.Target, hT⟩⟩
            · exact ih.2 s hs

/-- Every unmount issued by the rollback loop targets a resolved path,
provided the rolled-back prefix carries resolved targets. -/
lemma rollbackMounts_resolved (w : World) (pid : Nat)
    (done : List MountSyscallPayload)
    (hdone : ∀ p ∈ done, ∃ t0, w.resolve pid t0 = Except.ok p.Target) :
    ∀ s ∈ rollbackMounts done, usesResolvedPaths w pid s := by
  intro s hs
  rw [rollbackMounts, List.mem_filterMap] at hs
  obtain ⟨a, ha, hfa⟩ := hs
  rw [List.mem_reverse] at ha
  by_cases hflag : a.Flags &&& MS_REMOUNT = MS_REMOUNT
  · rw [if_pos hflag] at hfa
    cases hfa
  · rw [if_neg hflag] at hfa
    injection hfa with h
    subst h
    exact hdone a ha

/-- Every syscall traced by the umount batch handler targets a resolved
path. -/
lemma umount_trace_resolved (w : World) (pid : Nat) :
    ∀ l : List UmountSyscallPayload,
      ∀ s ∈ (processUmountSyscallRequest w pid l).2, usesResolvedPaths w pid s
  | [] => by simp [processUmountSyscallRequest]
  | q :: rest => by
    cases hr : w.resolve pid q.Target with
    | error er => simp [processUmountSyscallRequest, hr]
    | ok tgt =>
      cases hu : w.umountErr tgt q.Flags with
      | some er =>
        intro s hs
        simp only [processUmountSyscallRequest, hr, hu, List.mem_singleton] at hs
        subst hs
        exact ⟨q.Target, hr⟩
      | none =>
        intro s hs
        simp only [processUmountSyscallRequest, hr, hu, List.mem_cons] at hs
        rcases hs with rfl | hs
        · exact ⟨q.Target, hr⟩
        · exact umount_trace_resolved w pid rest s hs

/-- Every syscall traced by the chown loop targets a resolved path. -/
lemma chownLoop_resolved (w : World) (pid : Nat) :
    ∀ l : List ChownSyscallPayload,
      ∀ s ∈ (chownLoop w pid l).2, usesResolvedPaths w pid s
  | [] => by simp [chownLoop]
  | q :: rest => by
    cases hr : w.resolve pid q.Target with
    | error er => simp [chownLoop, hr]
    | ok tgt =>
      cases hu : w.chownErr tgt q.TargetUid q.TargetGid with
      | some er =>
        intro s hs
        simp only [chownLoop, hr, hu, List.mem_singleton] at hs
        subst hs
        exact ⟨q.Target, hr⟩
      | none =>
        intro s hs
        simp only [chownLoop, hr, hu, List.mem_cons] at hs
        rcases hs with rfl | hs
        · exact ⟨q.Target, hr⟩
        · exact chownLoop_resolved w pid rest s hs

/-- The chown handler's trace is exactly its loop's trace. -/
lemma processChown_trace (w : World) (pid : Nat) (l : List ChownSyscallPayload) :
    (processChownSyscallRequest w pid l).2 = (chownLoop w pid l).2 := by
  rcases h : chownLoop w pid l with ⟨a, tr⟩
  cases a <;> simp [processChownSyscallRequest, h]

/-- C5 as amended: the agent applies caller-pid path resolution only in
the MountSyscall, UmountSyscall and ChownSyscall handlers (every path
handed to those syscalls is an output of `ResolveProcSelf`); the Lookup,
OpenFile, ReadFile, WriteFile and ReadDir handlers pass the request path
to the syscall verbatim, even when it begins with `/proc/self`. -/
theorem c5_path_resolution_amended :
    (∀ (w : World) (pl : LookupPayload),
      (processLookupRequest w pl).2 = [Sys.stat pl.Entry])
    ∧ (∀ (w : World) (pl : OpenFilePayload),
      (processOpenFileRequest w pl).2 = []
      ∨ ∃ f m, (processOpenFileRequest w pl).2 = [Sys.openf pl.File f m])
    ∧ (∀ (w : World) (pl : ReadFilePayload),
      (processFileReadRequest w pl).2 = [Sys.readf pl.File])
    ∧ (∀ (w : World) (pl : WriteFilePayload),
      (processFileWriteRequest w pl).2 = [Sys.writef pl.File pl.Content])
    ∧ (∀ (w : World) (pl : ReadDirPayload),
      (processDirReadRequest w pl).2 = [Sys.readdir pl.Dir])
    ∧ (∀ (w : World) (pid : Nat) (payload : List MountSyscallPayload)
        (out : NSenterMessage × List Sys),
      processMountSyscallRequest w pid payload = some out →
      ∀ s ∈ out.2, usesResolvedPaths w pid s)
    ∧ (∀ (w : World) (pid : Nat) (payload : List UmountSyscallPayload),
      ∀ s ∈ (processUmountSyscallRequest w pid payload).2, usesResolvedPaths w pid s)
    ∧ (∀ (w : World) (pid : Nat) (payload : List ChownSyscallPayload),
      ∀ s ∈ (processChownSyscallRequest w pid payload).2, usesResolvedPaths w pid s) := by
  refine ⟨?_, ?_, ?_, ?_, ?_, ?_, ?_, ?_⟩
  · intro w pl
    cases h : w.stat pl.Entry <;> simp [processLookupRequest, h]
  · intro w pl
    cases hf : goParseInt pl.Flags with
    | error e => exact Or.inl (by simp [processOpenFileRequest, hf])
    | ok f =>
      cases hm : goParseInt pl.Mode with
      | error e => exact Or.inl (by simp [processOpenFileRequest, hf, hm])
      | ok m =>
        refine Or.inr ⟨f, m, ?_⟩
        cases ho : w.openFile pl.File f m <;>
          simp [processOpenFileRequest, hf, hm, ho]
  · intro w pl
    cases h : w.readFile pl.File <;> simp [processFileReadRequest, h]
  · intro w pl
    cases h : w.writeFile pl.File pl.Content <;> simp [processFileWriteRequest, h]
  · intro w pl
    cases h : w.readDir pl.Dir <;> simp [processDirReadRequest, h]
  · intro w pid payload out hout s hs
    cases payload with
    | nil => simp [processMountSyscallRequest] at hout
    | cons q qs =>
      cases hh : (if q.FsType = "overlay" then w.adjustErr q.Header else none) with
      | some er =>
        simp only [processMountSyscallRequest, hh, Option.some_inj] at hout
        subst hout
        simp at hs
      | none =>
        rw [processMount_eq w pid q qs hh] at hout
        cases hl : (mountLoop w pid (q :: qs)).2.1 with
        | some er =>
          simp only [hl, Option.some_inj] at hout
          subst hout
          rw [List.mem_append] at hs
          rcases hs with hs | hs
          · exact (mountLoop_resolved w pid (q :: qs)).2 s hs
          · exact rollbackMounts_resolved w pid (mountLoop w pid (q :: qs)).1
              (fun p hp => ((mountLoop_resolved w pid (q :: qs)).1 p hp).2) s hs
        | none =>
          simp only [hl, Option.some_inj] at hout
          subst hout
          exact (mountLoop_resolved w pid (q :: qs)).2 s hs
  · intro w pid payload s hs
    exact umount_trace_resolved w pid payload s hs
  · intro w pid payload s hs
    rw [processChown_trace] at hs
    exact chownLoop_resolved w pid payload s hs

/-- Witness for C5 as amended: a chown batch target `/proc/self/x` for
caller 4242 reaches the chown syscall as the resolved `/proc/4242/x`. -/
theorem c5_path_resolution_amended_witness :
    usesResolvedPaths wOk 4242 (Sys.chown (resolveProcSelf 4242 "/proc/self/x") 0 0) :=
  c5_path_resolution_amended.2.2.2.2.2.2.2 wOk 4242 [⟨"/proc/self/x", 0, 0⟩]
    (Sys.chown (resolveProcSelf 4242 "/proc/self/x") 0 0) (by decide)

/-- A Lookup reply is tagged `LookupResponse` or `ErrorResponse` and its
payload survives the master's decode unchanged. -/
lemma lookup_reply (w : World) (pl : LookupPayload) :
    ((processLookupRequest w pl).1.Mtype = MsgType.LookupResponse
      ∨ (processLookupRequest w pl).1.Mtype = MsgType.ErrorResponse)
    ∧ replyOk (processLookupRequest w pl).1 := by
  cases h : w.stat pl.Entry <;>
    simp [processLookupRequest, h, replyOk, processResponse, patchPayload]

/-- An OpenFile reply is tagged `OpenFileResponse` (nil payload) or
`ErrorResponse`, and the master's decode turns the nil payload into the
integer 0. -/
lemma openfile_reply (w : World) (pl : OpenFilePayload) :
    ((processOpenFileRequest w pl).1.Mtype = MsgType.OpenFileResponse
      ∨ (processOpenFileRequest w pl).1.Mtype = MsgType.ErrorResponse)
    ∧ replyOk (processOpenFileRequest w pl).1 := by
  cases hf : goParseInt pl.Flags with
  | error e => simp [processOpenFileRequest, hf, replyOk, processResponse, patchPayload]
  | ok f =>
    cases hm : goParseInt pl.Mode with
    | error e =>
      simp [processOpenFileRequest, hf, hm, replyOk, processResponse, patchPayload]
    | ok mode =>
      cases ho : w.openFile pl.File f mode <;>
        simp [processOpenFileRequest, hf, hm, ho, replyOk, processResponse, patchPayload]

/-- A ReadFile reply is tagged `ReadFileResponse` or `ErrorResponse` and
its payload survives the master's decode unchanged. -/
lemma readfile_reply (w : World) (pl : ReadFilePayload) :
    ((processFileReadRequest w pl).1.Mtype = MsgType.ReadFileResponse
      ∨ (processFileReadRequest w pl).1.Mtype = MsgType.ErrorResponse)
    ∧ replyOk (processFileReadRequest w pl).1 := by
  cases h : w.readFile pl.File <;>
    simp [processFileReadRequest, h, replyOk, processResponse, patchPayload]

/-- A WriteFile reply is tagged `WriteFileResponse` (nil payload) or
`ErrorResponse`, and the master's decode replaces the nil payload with the
empty string. -/
lemma writefile_reply (w : World) (pl : WriteFilePayload) :
    ((processFileWriteRequest w pl).1.Mtype = MsgType.WriteFileResponse
      ∨ (processFileWriteRequest w pl).1.Mtype = MsgType.ErrorResponse)
    ∧ replyOk (processFileWriteRequest w pl).1 := by
  cases h : w.writeFile pl.File pl.Content <;>
    simp [processFileWriteRequest, h, replyOk, processResponse, patchPayload]

/-- A ReadDir reply is tagged `ReadDirResponse` or `ErrorResponse` and its
payload survives the master's decode unchanged. -/
lemma readdir_reply (w : World) (pl : ReadDirPayload) :
    ((processDirReadRequest w pl).1.Mtype = MsgType.ReadDirResponse
      ∨ (processDirReadRequest w pl).1.Mtype = MsgType.ErrorResponse)
    ∧ replyOk (processDirReadRequest w pl).1 := by
  cases h : w.readDir pl.Dir <;>
    simp [processDirReadRequest, h, replyOk, processResponse, patchPayload]

/-- A MountInfo reply is tagged `MountInfoResponse` or `ErrorResponse` and
its payload survives the master's decode unchanged. -/
lemma mountinfo_reply (w : World) :
    ((processMountInfoRequest w).1.Mtype = MsgType.MountInfoResponse
      ∨ (processMountInfoRequest w).1.Mtype = MsgType.ErrorResponse)
    ∧ replyOk (processMountInfoRequest w).1 := by
  cases h : w.mountInfo <;>
    simp [processMountInfoRequest, h, replyOk, processResponse, patchPayload]

/-- A MountInode reply is tagged `MountInodeResponse` and its payload
survives the master's decode unchanged. -/
lemma mountinode_reply (w : World) (pl : MountInodeReqPayload) :
    ((processMountInodeRequest w pl).1.Mtype = MsgType.MountInodeResponse
      ∨ (processMountInodeRequest w pl).1.Mtype = MsgType.ErrorResponse)
    ∧ replyOk (processMountInodeRequest w pl).1 := by
  simp [processMountInodeRequest, replyOk, processResponse, patchPayload]

/-- A Sleep reply is tagged `SleepResponse` or `ErrorResponse` and its
payload survives the master's decode unchanged. -/
lemma sleep_reply (pl : SleepReqPayload) :
    ((processSleepRequest pl).1.Mtype = MsgType.SleepResponse
      ∨ (processSleepRequest pl).1.Mtype = MsgType.ErrorResponse)
    ∧ replyOk (processSleepRequest pl).1 := by
  cases h : goParseInt pl.Ival <;>
    simp [processSleepRequest, h, replyOk, processResponse, patchPayload]

/-- A MountSyscall reply is tagged `MountSyscallResponse` or
`ErrorResponse` and its payload survives the master's decode unchanged. -/
lemma mount_reply (w : World) (pid : Nat) (l : List MountSyscallPayload)
    (out : NSenterMessage × List Sys)
    (h : processMountSyscallRequest w pid l = some out) :
    (out.1.Mtype = MsgType.MountSyscallResponse
      ∨ out.1.Mtype = MsgType.ErrorResponse)
    ∧ replyOk out.1 := by
  cases l with
  | nil => simp [processMountSyscallRequest] at h
  | cons q qs =>
    cases hh : (if q.FsType = "overlay" then w.adjustErr q.Header else none) with
    | some er =>
      simp only [processMountSyscallRequest, hh, Option.some_inj] at h
      subst h
      simp [replyOk, processResponse, patchPayload]
    | none =>
      rw [processMount_eq w pid q qs hh] at h
      cases hl : (mountLoop w pid (q :: qs)).2.1 with
      | some er =>
        simp only [hl, Option.some_inj] at h
        subst h
        simp [replyOk, processResponse, patchPayload]
      | none =>
        simp only [hl, Option.some_inj] at h
        subst h
        simp [replyOk, processResponse, patchPayload]

/-- An UmountSyscall reply (when one is produced at all) is tagged
`UmountSyscallResponse` or `ErrorResponse` and its payload survives the
master's decode unchanged. -/
lemma umount_reply (w : World) (pid : Nat) :
    ∀ (l : List UmountSyscallPayload) (m : NSenterMessage) (tr : List Sys),
      processUmountSyscallRequest w pid l = (some m, tr) →
      (m.Mtype = MsgType.UmountSyscallResponse ∨ m.Mtype = MsgType.ErrorResponse)
      ∧ replyOk m
  | [] => by
    intro m tr h
    simp only [processUmountSyscallRequest, Prod.mk.injEq, Option.some_inj] at h
    obtain ⟨h1, h2⟩ := h
    subst h1
    simp [replyOk, processResponse, patchPayload]
  | q :: rest => by
    intro m tr h
    cases hr : w.resolve pid q.Target with
    | error er => simp [processUmountSyscallRequest, hr] at h
    | ok tgt =>
      cases hu : w.umountErr tgt q.Flags with
      | some er =>
        simp only [processUmountSyscallRequest, hr, hu, Prod.mk.injEq,
          Option.some_inj] at h
        obtain ⟨h1, h2⟩ := h
        subst h1
        simp [replyOk, processResponse, patchPayload]
      | none =>
        simp only [processUmountSyscallRequest, hr, hu, Prod.mk.injEq] at h
        obtain ⟨h1, h2⟩ := h
        exact umount_reply w pid rest m (processUmountSyscallRequest w pid rest).2
          (by rw [← h1])

/-- The chown loop, when it records a response at all, records an
`ErrorResponse`. -/
lemma chownLoop_reply (w : World) (pid : Nat) :
    ∀ (l : List ChownSyscallPayload) (m : NSenterMessage) (tr : List Sys),
      chownLoop w pid l = (some m, tr) →
      ∃ er, m = ⟨MsgType.ErrorResponse, Payload.pioErr er⟩
  | [] => by
    intro m tr h
    simp [chownLoop] at h
  | q :: rest => by
    intro m tr h
    cases hr : w.resolve pid q.Target with
    | error er => simp [chownLoop, hr] at h
    | ok tgt =>
      cases hu : w.chownErr tgt q.TargetUid q.TargetGid with
      | some er =>
        simp only [chownLoop, hr, hu, Prod.mk.injEq, Option.some_inj] at h
        obtain ⟨h1, h2⟩ := h
        exact ⟨er, h1.symm⟩
      | none =>
        simp only [chownLoop, hr, hu, Prod.mk.injEq] at h
        obtain ⟨h1, h2⟩ := h
        exact chownLoop_reply w pid rest m (chownLoop w pid rest).2 (by rw [← h1])

/-- A ChownSyscall reply is tagged `ChownSyscallResponse` or
`ErrorResponse` and its payload survives the master's decode unchanged. -/
lemma chown_reply (w : World) (pid : Nat) (l : List ChownSyscallPayload) :
    ((processChownSyscallRequest w pid l).1.Mtype = MsgType.ChownSyscallResponse
      ∨ (processChownSyscallRequest w pid l).1.Mtype = MsgType.ErrorResponse)
    ∧ replyOk (processChownSyscallRequest w pid l).1 := by
  rcases hl : chownLoop w pid l with ⟨a, tr⟩
  cases a with
  | none => simp [processChownSyscallRequest, hl, replyOk, processResponse, patchPayload]
  | some mm =>
    obtain ⟨er, rfl⟩ := chownLoop_reply w pid l mm tr hl
    simp [processChownSyscallRequest, hl, replyOk, processResponse, patchPayload]

/-- C2 as amended: for every request variant, whenever the agent's
`processRequest` leaves a reply, the master's `processResponse` accepts it
and returns a message with the same tag — the variant's success-response
tag, or `ErrorResponse` on failure — and a payload deep-equal to the
agent's, except for the two variants whose agent-side success payload is
nil: an `OpenFileResponse` payload becomes the integer 0 and a
`WriteFileResponse` payload becomes the empty string (`patchPayload`);
for every other tag the patch is the identity. -/
theorem c2_roundtrip_amended (w : World) (credPid : Int) (msg : NSenterMessage)
    (m : NSenterMessage) (tr : List Sys)
    (hreq : requestTagB msg.Mtype = true)
    (h : processRequest w credPid msg = AgentOutcome.reply m tr) :
    (m.Mtype = successTagOf msg.Mtype ∨ m.Mtype = MsgType.ErrorResponse)
    ∧ processResponse m = Except.ok ⟨m.Mtype, patchPayload m.Mtype m.Payload⟩
    ∧ ∀ pl, m.Mtype ≠ MsgType.OpenFileResponse →
        m.Mtype ≠ MsgType.WriteFileResponse → patchPayload m.Mtype pl = pl := by
  have hpatch : ∀ pl, m.Mtype ≠ MsgType.OpenFileResponse →
      m.Mtype ≠ MsgType.WriteFileResponse → patchPayload m.Mtype pl = pl := by
    intro pl h1 h2
    simp [patchPayload, h1, h2]
  cases hc : w.credErr with
  | some e => simp [processRequest, hc] at h
  | none =>
    obtain ⟨t, p⟩ := msg
    cases t
    case LookupRequest =>
      cases p <;> simp [processRequest, hc] at h
      case plookup pl =>
        obtain ⟨h1, h2⟩ := h
        subst h1
        refine ⟨?_, (lookup_reply w pl).2, hpatch⟩
        simpa [successTagOf] using (lookup_reply w pl).1
      case pnil =>
        obtain ⟨h1, h2⟩ := h
        subst h1
        refine ⟨?_, (lookup_reply w zeroLookup).2, hpatch⟩
        simpa [successTagOf] using (lookup_reply w zeroLookup).1
    case OpenFileRequest =>
      cases p <;> simp [processRequest, hc] at h
      case popen pl =>
        obtain ⟨h1, h2⟩ := h
        subst h1
        refine ⟨?_, (openfile_reply w pl).2, hpatch⟩
        simpa [successTagOf] using (openfile_reply w pl).1
      case pnil =>
        obtain ⟨h1, h2⟩ := h
        subst h1
        refine ⟨?_, (openfile_reply w zeroOpen).2, hpatch⟩
        simpa [successTagOf] using (openfile_reply w zeroOpen).1
    case ReadFileRequest =>
      cases p <;> simp [processRequest, hc] at h
      case pread pl =>
        obtain ⟨h1, h2⟩ := h
        subst h1
        refine ⟨?_, (readfile_reply w pl).2, hpatch⟩
        simpa [successTagOf] using (readfile_reply w pl).1
      case pnil =>
        obtain ⟨h1, h2⟩ := h
        subst h1
        refine ⟨?_, (readfile_reply w zeroRead).2, hpatch⟩
        simpa [successTagOf] using (readfile_reply w zeroRead).1
    case WriteFileRequest =>
      cases p <;> simp [processRequest, hc] at h
      case pwrite pl =>
        obtain ⟨h1, h2⟩ := h
        subst h1
        refine ⟨?_, (writefile_reply w pl).2, hpatch⟩
        simpa [successTagOf] using (writefile_reply w pl).1
      case pnil =>
        obtain ⟨h1, h2⟩ := h
        subst h1
        refine ⟨?_, (writefile_reply w zeroWrite).2, hpatch⟩
        simpa [successTagOf] using (writefile_reply w zeroWrite).1
    case ReadDirRequest =>
      cases p <;> simp [processRequest, hc] at h
      case preaddir pl =>
        obtain ⟨h1, h2⟩ := h
        subst h1
        refine ⟨?_, (readdir_reply w pl).2, hpatch⟩
        simpa [successTagOf] using (readdir_reply w pl).1
      case pnil =>
        obtain ⟨h1, h2⟩ := h
        subst h1
        refine ⟨?_, (readdir_reply w zeroReadDir).2, hpatch⟩
        simpa [successTagOf] using (readdir_reply w zeroReadDir).1
    case MountSyscallRequest =>
      cases p <;> simp [processRequest, hc] at h
      case pmountReq l =>
        cases hres : processMountSyscallRequest w (getProcCredsPid credPid) l with
        | none => rw [hres] at h; simp at h
        | some out =>
          rw [hres] at h
          simp at h
          obtain ⟨h1, h2⟩ := h
          subst h1
          refine ⟨?_, (mount_reply w (getProcCredsPid credPid) l out hres).2, hpatch⟩
          simpa [successTagOf] using
            (mount_reply w (getProcCredsPid credPid) l out hres).1
    case UmountSyscallRequest =>
      cases p <;> simp [processRequest, hc] at h
      case pumountReq l =>
        rcases hres : processUmountSyscallRequest w (getProcCredsPid credPid) l
          with ⟨a, tr2⟩
        rw [hres] at h
        cases a with
        | none => simp at h
        | some mm =>
          simp at h
          obtain ⟨h1, h2⟩ := h
          subst h1
          refine ⟨?_, (umount_reply w (getProcCredsPid credPid) l mm tr2 hres).2, hpatch⟩
          simpa [successTagOf] using
            (umount_reply w (getProcCredsPid credPid) l mm tr2 hres).1
      case pnil =>
        obtain ⟨h1, h2⟩ := h
        subst h1
        refine ⟨Or.inl rfl, by simp [processResponse, patchPayload], hpatch⟩
    case MountInfoRequest =>
      cases p <;> simp [processRequest, hc] at h <;>
        obtain ⟨h1, h2⟩ := h <;> subst h1 <;>
        exact ⟨by simpa [successTagOf] using (mountinfo_reply w).1,
          (mountinfo_reply w).2, hpatch⟩
    case MountInodeRequest =>
      cases p <;> simp [processRequest, hc] at h
      case pinodeReq pl =>
        obtain ⟨h1, h2⟩ := h
        subst h1
        refine ⟨?_, (mountinode_reply w pl).2, hpatch⟩
        simpa [successTagOf] using (mountinode_reply w pl).1
      case pnil =>
        obtain ⟨h1, h2⟩ := h
        subst h1
        refine ⟨?_, (mountinode_reply w zeroInodeReq).2, hpatch⟩
        simpa [successTagOf] using (mountinode_reply w zeroInodeReq).1
    case ChownSyscallRequest =>
      cases p <;> simp [processRequest, hc] at h
      case pchownReq l =>
        obtain ⟨h1, h2⟩ := h
        subst h1
        refine ⟨?_, (chown_reply w (getProcCredsPid credPid) l).2, hpatch⟩
        simpa [successTagOf] using (chown_reply w (getProcCredsPid credPid) l).1
      case pnil =>
        obtain ⟨h1, h2⟩ := h
        subst h1
        refine ⟨?_, (chown_reply w (getProcCredsPid credPid) []).2, hpatch⟩
        simpa [successTagOf] using (chown_reply w (getProcCredsPid credPid) []).1
    case SleepRequest =>
      cases p <;> simp [processRequest, hc] at h
      case psleep pl =>
        obtain ⟨h1, h2⟩ := h
        subst h1
        refine ⟨?_, (sleep_reply pl).2, hpatch⟩
        simpa [successTagOf] using (sleep_reply pl).1
      case pnil =>
        obtain ⟨h1, h2⟩ := h
        subst h1
        refine ⟨?_, (sleep_reply zeroSleep).2, hpatch⟩
        simpa [successTagOf] using (sleep_reply zeroSleep).1
    all_goals simp [requestTagB] at hreq

/-- Witness for C2 as amended: the ReadFile round trip for caller 7 on a
file whose raw content is " 30\n" passes the trimmed payload through the
master unchanged. -/
theorem c2_roundtrip_amended_witness :
    processResponse ⟨MsgType.ReadFileResponse, Payload.pstr "30"⟩
      = Except.ok ⟨MsgType.ReadFileResponse,
          patchPayload MsgType.ReadFileResponse (Payload.pstr "30")⟩ := by
  have h := c2_roundtrip_amended wOk 7 ⟨MsgType.ReadFileRequest, Payload.pread ⟨"/f"⟩⟩
    ⟨MsgType.ReadFileResponse, Payload.pstr "30"⟩ [Sys.readf "/f"] (by decide) (by decide)
  exact h.2.1

end SysboxFS
